import Mathlib

/-!
Verification development for the templated C string-format library
(`utils/format.h` / `utils/format.cpp`).

The C++ code is shallowly embedded: the template scanner, field parser,
specifier resolver, renderers and the fragment assembler are translated
function-by-function.  Machine integers (`int`) are modeled as `Int` with an
explicit 32-bit wrap where the source relies on overflow; `long double`
values are modeled as exact rationals (all values the theorems evaluate are
exactly representable); exceptions become `Except` values; the process
environment becomes an explicit lookup function threaded through parsing.
-/

namespace StrFormat

/-- Errors of the C++ code: `IllegalFormatStringException` carries a position
and a message; the fragment assembler throws `std::out_of_range` for an
unhandled fragment, carrying the offending index in its message. -/
inductive FormatError where
  | illegalFormat (pos : Nat) (message : String)
  | outOfRange (index : Int)
deriving Repr, DecidableEq

/-- Mirror of `struct FormatFragment` (format.h).  `index` is `-1` for text
fragments and `-2` for environment fragments; `selectors` is the FIFO queue
of selector tokens; `handled` mirrors the member guarded by
`FORMAT_DISABLE_THROW_OUT_OF_RANGE`. -/
structure FormatFragment where
  text : String := ""
  formatSpecifier : String := ""
  selectors : List String := []
  index : Int := -1
  explicitConversion : Char := '\x00'
  handled : Bool := false
deriving Repr, DecidableEq

/-- Mirror of `struct BasicFormatSpecifiers` (format.h). -/
structure BasicFormatSpecifiers where
  width : Int
  precision : Int
  fill : Char
  align : Char
  sign : Char
  type : Char
  alternateForm : Bool
  thousandSeparator : Bool
deriving Repr, DecidableEq

/-- Mirror of `InitializeFormatSpecifier` (format.cpp): the default-initialised
specifier struct. -/
def InitializeFormatSpecifier : BasicFormatSpecifiers :=
  { precision := -1
    width := 0
    align := '\x00'
    fill := '\x00'
    sign := '-'
    type := '\x00'
    alternateForm := false
    thousandSeparator := false }

/-- Mirror of `InitializeFormatFragment` (format.cpp): sets the index, clears
the conversion, and marks fragments with a negative index as handled. -/
def InitializeFormatFragment (fragment : FormatFragment) (index : Int) : FormatFragment :=
  { fragment with index := index, explicitConversion := '\x00', handled := index < 0 }

mutual

/-- The argument universe of the embedding: the instantiations of the C++
variadic `Format` that this development reasons about.  Integral types
(`short`/`int`/`int64_t`) funnel into `vInt`, floating types into `vFloat`
(modeled as exact rationals), strings into `vStr`, and `std::map` with
string keys into `vMap`. -/
inductive Value where
  | vInt (n : Int)
  | vFloat (q : ℚ)
  | vBool (b : Bool)
  | vStr (s : String)
  | vMap (entries : ValueEntries)

/-- The ordered key/value entries of a string-keyed map argument. -/
inductive ValueEntries where
  | nil
  | cons (key : String) (value : Value) (rest : ValueEntries)

end

/-- Build map entries from a list of pairs. -/
def ValueEntries.ofList : List (String × Value) → ValueEntries
  | [] => .nil
  | (k, v) :: rest => .cons k v (ValueEntries.ofList rest)

/-- Identifier characters accepted by `ReadIdentifier` (format.cpp):
alphanumerics and underscore. -/
def isIdentChar (c : Char) : Bool :=
  ('a' ≤ c ∧ c ≤ 'z') ∨ ('A' ≤ c ∧ c ≤ 'Z') ∨ ('0' ≤ c ∧ c ≤ '9') ∨ c = '_'

/-- Digit characters, as tested by `ParseIntegerNumber`. -/
def isDigitChar (c : Char) : Bool := '0' ≤ c ∧ c ≤ '9'

/-- Mirror of `GetPlainTextFragment` (format.cpp): copies literal text until
an unescaped opening brace or the terminator, un-doubling escaped braces.
The `expect` character mirrors the local `expect` variable (`'\x00'` means
unset).  Returns the text read, the remaining input, and the final position.
Note: reaching the terminator while `expect` is pending returns normally
(the C++ loop just ends), even though the function is documented to throw on
every unescaped closing brace. -/
def GetPlainTextFragment : List Char → Nat → Char → Except FormatError (List Char × List Char × Nat)
  | [], pos, _ => .ok ([], [], pos)
  | c :: rest, pos, expect =>
    if expect ≠ '\x00' ∧ expect ≠ c then
      .error (.illegalFormat pos "Expected a different character, is this supposed to be escaped?")
    else if c = '\x7b' then
      match rest with
      | '\x7b' :: rest2 => do
        let (out, rem, p) ← GetPlainTextFragment rest2 (pos + 2) expect
        .ok ('\x7b' :: out, rem, p)
      | _ => .ok ([], c :: rest, pos)
    else if c = '\x7d' then
      if expect = '\x7d' then do
        let (out, rem, p) ← GetPlainTextFragment rest (pos + 1) '\x00'
        .ok ('\x7d' :: out, rem, p)
      else GetPlainTextFragment rest (pos + 1) '\x7d'
    else do
      let (out, rem, p) ← GetPlainTextFragment rest (pos + 1) expect
      .ok (c :: out, rem, p)

/-- Mirror of `SkipWhitespace` (format.cpp). -/
def SkipWhitespace : List Char → Nat → List Char × Nat
  | [], pos => ([], pos)
  | c :: rest, pos =>
    if c = ' ' ∨ c = '\t' ∨ c = '\n' ∨ c = '\r' then SkipWhitespace rest (pos + 1)
    else (c :: rest, pos)

/-- Two-sided 32-bit wrap of the C++ `int` accumulator in
`ParseIntegerNumber`; signed overflow is modeled as the two's-complement
wrap the overflow check in the source expects. -/
def wrap32 (x : Int) : Int := (x + 2147483648) % 4294967296 - 2147483648

/-- Loop body of `ParseIntegerNumber` (format.cpp); carries the accumulator,
the sign, the first-character flag and the found-any flag. -/
def ParseIntegerNumberAux (fmtStr : Bool) (allowNegative : Bool) :
    List Char → Nat → Int → Int → Bool → Bool → Except FormatError (Int × Int × Bool × List Char × Nat)
  | [], pos, p, sign, _, found => .ok (p, sign, found, [], pos)
  | c :: rest, pos, p, sign, firstChar, found =>
    if c = '-' then
      if allowNegative ∧ firstChar then
        ParseIntegerNumberAux fmtStr allowNegative rest (pos + 1) p (-1) false true
      else .error (.illegalFormat pos "A sign character is not allowed at this position")
    else if isDigitChar c then
      let p2 := wrap32 (p * 10 + ((c.toNat : Int) - 48))
      if p2 < 0 then .error (.illegalFormat pos "Integer value overflows, use a smaller number")
      else ParseIntegerNumberAux fmtStr allowNegative rest (pos + 1) p2 sign false true
    else .ok (p, sign, found, c :: rest, pos)

/-- Mirror of `ParseIntegerNumber` (format.cpp): reads a base-10 integer,
substituting `defaultValue` when no digit is found, and rejecting `-0`. -/
def ParseIntegerNumber (s : List Char) (pos : Nat) (allowNegative : Bool) (defaultValue : Int) :
    Except FormatError (Int × List Char × Nat) := do
  let (p, sign, found, rest, pos2) ← ParseIntegerNumberAux true allowNegative s pos 0 1 true false
  let p := if found then p else defaultValue
  if p = 0 ∧ sign < 0 then .error (.illegalFormat pos2 "-0 is not a valid integer")
  else .ok (p * sign, rest, pos2)

/-- The four alignment tokens of `ReadAlignSpecifier`. -/
def isAlignChar (c : Char) : Bool := c = '<' ∨ c = '>' ∨ c = '=' ∨ c = '^'

/-- Mirror of `ReadAlignSpecifier` (format.cpp): a fill+align pair, or a lone
align token; requires at least two characters to look at, as in the source. -/
def ReadAlignSpecifier (s : List Char) (pos : Nat) (sp : BasicFormatSpecifiers) :
    BasicFormatSpecifiers × List Char × Nat :=
  match s with
  | c1 :: c2 :: rest =>
    if isAlignChar c2 then ({ sp with align := c2, fill := c1 }, rest, pos + 2)
    else if isAlignChar c1 then ({ sp with align := c1, fill := '\x00' }, c2 :: rest, pos + 1)
    else (sp, c1 :: c2 :: rest, pos)
  | _ => (sp, s, pos)

/-- Mirror of `ReadSignSpecifier` (format.cpp). -/
def ReadSignSpecifier (s : List Char) (pos : Nat) (sp : BasicFormatSpecifiers) :
    BasicFormatSpecifiers × List Char × Nat :=
  match s with
  | c :: rest =>
    if c = '+' ∨ c = '-' ∨ c = ' ' then ({ sp with sign := c }, rest, pos + 1)
    else (sp, c :: rest, pos)
  | [] => (sp, [], pos)

/-- Mirror of `ReadAlternateSpecifier` (format.cpp). -/
def ReadAlternateSpecifier (s : List Char) (pos : Nat) (sp : BasicFormatSpecifiers) :
    BasicFormatSpecifiers × List Char × Nat :=
  match s with
  | '#' :: rest => ({ sp with alternateForm := true }, rest, pos + 1)
  | _ => (sp, s, pos)

/-- Mirror of `ReadSignAwareZeroSpecifier` (format.cpp): sets the fill to `0`
and defaults the alignment to internal. -/
def ReadSignAwareZeroSpecifier (s : List Char) (pos : Nat) (sp : BasicFormatSpecifiers) :
    BasicFormatSpecifiers × List Char × Nat :=
  match s with
  | '0' :: rest =>
    let sp := { sp with fill := '0' }
    let sp := if sp.align = '\x00' then { sp with align := '=' } else sp
    (sp, rest, pos + 1)
  | _ => (sp, s, pos)

/-- Mirror of `ReadThousandSepSpecifier` (format.cpp). -/
def ReadThousandSepSpecifier (s : List Char) (pos : Nat) (sp : BasicFormatSpecifiers) :
    BasicFormatSpecifiers × List Char × Nat :=
  match s with
  | ',' :: rest => ({ sp with thousandSeparator := true }, rest, pos + 1)
  | _ => (sp, s, pos)

/-- Mirror of `ReadPrecisionSpecifier` (format.cpp): a `.` followed by an
integer (default `-1`). -/
def ReadPrecisionSpecifier (s : List Char) (pos : Nat) (sp : BasicFormatSpecifiers) :
    Except FormatError (BasicFormatSpecifiers × List Char × Nat) :=
  match s with
  | '.' :: rest => do
    let (p, rem, pos2) ← ParseIntegerNumber rest (pos + 1) false (-1)
    .ok ({ sp with precision := p }, rem, pos2)
  | _ => .ok (sp, s, pos)

/-- The presentation-type letters accepted by `ReadTypeSpecifier`. -/
def isTypeChar (c : Char) : Bool :=
  c = 'b' ∨ c = 'c' ∨ c = 'd' ∨ c = 'e' ∨ c = 'E' ∨ c = 'f' ∨ c = 'F' ∨
  c = 'g' ∨ c = 'G' ∨ c = 'n' ∨ c = 'o' ∨ c = 'x' ∨ c = 'X' ∨ c = '%'

/-- Mirror of `ReadTypeSpecifier` (format.cpp). -/
def ReadTypeSpecifier (s : List Char) (pos : Nat) (sp : BasicFormatSpecifiers) :
    BasicFormatSpecifiers × List Char × Nat :=
  match s with
  | c :: rest =>
    if isTypeChar c then ({ sp with type := c }, rest, pos + 1)
    else (sp, c :: rest, pos)
  | [] => (sp, [], pos)

/-- Mirror of `ConvertToBasicFormatSpecifiers` (format.cpp): the fixed-order
option grammar; leftover characters after all stages are ignored. -/
def ConvertToBasicFormatSpecifiers (s : List Char) : Except FormatError BasicFormatSpecifiers :=
  if s.isEmpty then .ok InitializeFormatSpecifier
  else do
    let sp := InitializeFormatSpecifier
    let (sp, s, pos) := ReadAlignSpecifier s 0 sp
    let (sp, s, pos) := ReadSignSpecifier s pos sp
    let (sp, s, pos) := ReadAlternateSpecifier s pos sp
    let (sp, s, pos) := ReadSignAwareZeroSpecifier s pos sp
    let (w, s, pos) ← ParseIntegerNumber s pos false 0
    let sp := { sp with width := w }
    let (sp, s, pos) := ReadThousandSepSpecifier s pos sp
    let (sp, s, pos) ← ReadPrecisionSpecifier s pos sp
    let (sp, _, _) := ReadTypeSpecifier s pos sp
    .ok sp

/-- Mirror of `ReadIdentifier` (format.cpp): reads alphanumerics and
underscores. -/
def ReadIdentifier : List Char → Nat → List Char × List Char × Nat
  | [], pos => ([], [], pos)
  | c :: rest, pos =>
    if isIdentChar c then
      let (out, rem, p) := ReadIdentifier rest (pos + 1)
      (c :: out, rem, p)
    else ([], c :: rest, pos)

/-- Mirror of `ReadEnvironmentVariableName` (format.cpp): skips the `$` and
reads an identifier. -/
def ReadEnvironmentVariableName (s : List Char) (pos : Nat) : List Char × List Char × Nat :=
  match s with
  | '$' :: rest => ReadIdentifier rest (pos + 1)
  | _ => ([], s, pos)

/-- Mirror of `ReadFormatSpecifier` (format.cpp): raw specifier text up to an
unescaped closing brace; escaped braces are un-doubled; an unescaped opening
brace is an error; the terminator ends the read. -/
def ReadFormatSpecifier : List Char → Nat → Except FormatError (List Char × List Char × Nat)
  | [], pos => .ok ([], [], pos)
  | c :: rest, pos =>
    if c = '\x7d' then
      match rest with
      | '\x7d' :: rest2 => do
        let (out, rem, p) ← ReadFormatSpecifier rest2 (pos + 2)
        .ok ('\x7d' :: out, rem, p)
      | _ => .ok ([], c :: rest, pos)
    else if c = '\x7b' then
      match rest with
      | '\x7b' :: rest2 => do
        let (out, rem, p) ← ReadFormatSpecifier rest2 (pos + 2)
        .ok ('\x7b' :: out, rem, p)
      | _ => .error (.illegalFormat pos "Expected a different character, is this supposed to be escaped?")
    else do
      let (out, rem, p) ← ReadFormatSpecifier rest (pos + 1)
      .ok (c :: out, rem, p)

/-- Mirror of `ReadExplicitTypeConversion` (format.cpp).  A `!` at the end of
the input mirrors `strchr("srid", '\0')` finding the terminator: no error is
raised and the conversion stays unset. -/
def ReadExplicitTypeConversion (s : List Char) (pos : Nat) (fragment : FormatFragment) :
    Except FormatError (FormatFragment × List Char × Nat) :=
  match s with
  | '!' :: rest =>
    match rest with
    | [] => .ok ({ fragment with explicitConversion := '\x00' }, [], pos + 2)
    | c :: rest2 =>
      if c = 's' ∨ c = 'r' ∨ c = 'i' ∨ c = 'd' then
        .ok ({ fragment with explicitConversion := c }, rest2, pos + 2)
      else .error (.illegalFormat (pos + 1) "Unknown format conversion specifier, expected one of: s, r, i, and d")
  | _ => .ok (fragment, s, pos)

/-- Mirror of `ReadSelector` (format.cpp): a `.` or `[` introducing an
identifier; a `[` selector must be closed by `]`; a `]` after a `.` selector
is consumed as in the source. -/
def ReadSelector (s : List Char) (pos : Nat) (fragment : FormatFragment) :
    Except FormatError (FormatFragment × List Char × Nat) :=
  match s with
  | c :: rest =>
    if c = '.' ∨ c = '[' then
      let (ident, rem, p2) := ReadIdentifier rest (pos + 1)
      match rem with
      | e :: rem2 =>
        if c = '[' ∧ e ≠ ']' then .error (.illegalFormat p2 "Illegal selector syntax")
        else if e = ']' then
          .ok ({ fragment with selectors := fragment.selectors ++ [String.mk ident] }, rem2, p2 + 1)
        else
          .ok ({ fragment with selectors := fragment.selectors ++ [String.mk ident] }, e :: rem2, p2)
      | [] =>
        if c = '[' then .error (.illegalFormat p2 "Illegal selector syntax")
        else .ok ({ fragment with selectors := fragment.selectors ++ [String.mk ident] }, [], p2)
    else .ok (fragment, c :: rest, pos)
  | [] => .ok (fragment, [], pos)

/-- Loop of `ReadSelectors` (format.cpp); each iteration consumes the
selector introducer, so the input length bounds the iteration count and is
used as fuel. -/
def ReadSelectorsAux (env : Unit) : Nat → List Char → Nat → FormatFragment →
    Except FormatError (FormatFragment × List Char × Nat)
  | 0, s, pos, fragment => .ok (fragment, s, pos)
  | fuel + 1, s, pos, fragment =>
    match s with
    | c :: _ =>
      if c = '.' ∨ c = '[' then do
        let (fragment2, s2, pos2) ← ReadSelector s pos fragment
        ReadSelectorsAux env fuel s2 pos2 fragment2
      else .ok (fragment, s, pos)
    | [] => .ok (fragment, [], pos)

/-- Mirror of `ReadSelectors` (format.cpp). -/
def ReadSelectors (s : List Char) (pos : Nat) (fragment : FormatFragment) :
    Except FormatError (FormatFragment × List Char × Nat) :=
  ReadSelectorsAux () (s.length + 1) s pos fragment

/-- Mirror of `ParseFormatSpecifier` (format.cpp): extracts the raw
specifier text after a `:`. -/
def ParseFormatSpecifier (s : List Char) (pos : Nat) (fragment : FormatFragment) :
    Except FormatError (FormatFragment × List Char × Nat) :=
  match s with
  | ':' :: rest => do
    let (spec, rem, p) ← ReadFormatSpecifier rest (pos + 1)
    .ok ({ fragment with formatSpecifier := String.mk spec }, rem, p)
  | _ => .ok (fragment, s, pos)

/-- The `std::ios_base` adjustfield values the code sets. -/
inductive AdjustField where
  | left
  | right
  | internal
deriving Repr, DecidableEq

/-- The `std::ios_base` floatfield values the code sets (`general` is the
default float formatting, i.e. neither `fixed` nor `scientific`). -/
inductive FloatFieldMode where
  | general
  | fixed
  | scientific
deriving Repr, DecidableEq

/-- The slice of `std::ostream` formatting state the code manipulates via
`setw`, `setfill`, `setprecision`, `showpos`, `uppercase`, `left`/`right`/
`internal`, `fixed`/`scientific`, `oct`/`hex`, and the imbued
comma-grouping locale. -/
structure StreamState where
  width : Int := 0
  fill : Char := ' '
  precision : Int := 6
  adjust : AdjustField := .right
  showpos : Bool := false
  uppercase : Bool := false
  floatfield : FloatFieldMode := .general
  base : Nat := 10
  grouping : Bool := false
deriving Repr, DecidableEq

/-- The 64-bit unsigned reinterpretation used for `oct`/`hex` stream output
of a signed value and for the `bitset<64>` binary path. -/
def toUnsigned64 (v : Int) : Nat := (v % 18446744073709551616).toNat

/-- Insert a comma every three digits, counting from the right — the
`AlwaysCommaAsThousandsSep` numpunct with grouping `"\3"`. -/
def groupThousandsRev : List Char → Nat → List Char
  | [], _ => []
  | c :: rest, k =>
    if (k + 1) % 3 = 0 ∧ rest ≠ [] then c :: ',' :: groupThousandsRev rest (k + 1)
    else c :: groupThousandsRev rest (k + 1)

/-- Comma-group a digit string (most significant digit first). -/
def groupThousands (ds : List Char) : List Char := (groupThousandsRev ds.reverse 0).reverse

/-- Comma-group only the digits before the decimal point. -/
def groupIntegerPart (ds : List Char) : List Char :=
  let intPart := ds.takeWhile (fun c => c ≠ '.')
  let rest := ds.dropWhile (fun c => c ≠ '.')
  groupThousands intPart ++ rest

/-- Numeric stream padding: pad to the field width with the fill character;
internal adjustment pads between the sign and the digits. -/
def padNumeric (st : StreamState) (sign digits : List Char) : List Char :=
  let content := sign ++ digits
  let w := st.width.toNat
  if content.length < w then
    let pad := List.replicate (w - content.length) st.fill
    match st.adjust with
    | .left => content ++ pad
    | .right => pad ++ content
    | .internal => sign ++ pad ++ digits
  else content

/-- Model of `ostream << (const char*)`: pad the string to the field width
(non-left adjustments pad on the left for string inserts). -/
def streamInsertStr (st : StreamState) (s : List Char) : List Char :=
  let w := st.width.toNat
  if s.length < w then
    match st.adjust with
    | .left => s ++ List.replicate (w - s.length) st.fill
    | _ => List.replicate (w - s.length) st.fill ++ s
  else s

/-- Model of `ostream << (int64_t)`: decimal output shows a sign (`-`, or `+`
under `showpos`); octal and hexadecimal output print the 64-bit unsigned
reinterpretation with no sign; the imbued locale inserts comma grouping. -/
def streamInsertInt (st : StreamState) (v : Int) : List Char :=
  let (sign, digits) :=
    if st.base = 10 then
      ((if v < 0 then ['-'] else if st.showpos then ['+'] else []), Nat.toDigits 10 v.natAbs)
    else
      (([] : List Char), Nat.toDigits st.base (toUnsigned64 v))
  let digits := if st.uppercase then digits.map Char.toUpper else digits
  let digits := if st.grouping then groupThousands digits else digits
  padNumeric st sign digits

/-- Floor of a rational (the denominator is positive, so integer division
of the numerator by the denominator rounds toward negative infinity). -/
def ratFloor (q : ℚ) : Int := q.num / (q.den : Int)

/-- Integer powers of a rational. -/
def qpowInt (q : ℚ) (e : Int) : ℚ := if 0 ≤ e then q ^ e.toNat else 1 / q ^ (-e).toNat

/-- Round a rational to the nearest integer, ties to even — the default
floating-point rounding used when the C library converts a binary value
whose remaining digits are exactly representable. -/
def roundHalfEven (q : ℚ) : Int :=
  let n := ratFloor q
  let r := q - (n : ℚ)
  if r < 1 / 2 then n
  else if 1 / 2 < r then n + 1
  else if n % 2 = 0 then n else n + 1

/-- Truncation toward zero: `std::trunc` / `static_cast<int64_t>` on our
exact-rational model of a floating value. -/
def ratTrunc (q : ℚ) : Int := if 0 ≤ q then ratFloor q else -(ratFloor (-q))

/-- Digits (with decimal point) of `|q|` in fixed notation with `p` digits
after the point — the `%f`-style conversion of the C library on the exact
value. -/
def fixedDigits (q : ℚ) (p : Nat) : List Char :=
  let scaled := roundHalfEven (|q| * (10 : ℚ) ^ p)
  let ds := Nat.toDigits 10 scaled.toNat
  let ds := if ds.length < p + 1 then List.replicate (p + 1 - ds.length) '0' ++ ds else ds
  if p = 0 then ds
  else ds.take (ds.length - p) ++ '.' :: ds.drop (ds.length - p)

/-- Exponent digits of scientific output, at least two wide. -/
def expTwoDigits (n : Nat) : List Char :=
  let ds := Nat.toDigits 10 n
  if ds.length < 2 then '0' :: ds else ds

/-- Search for the decimal exponent of a positive rational below one: the
number of tenfold steps needed to reach one.  The denominator size bounds
the number of steps for every value a binary float can take, and is used as
fuel. -/
def decExpSearch : Nat → ℚ → Nat → Int
  | 0, _, k => -(k : Int) - 1
  | fuel + 1, q, k =>
    let q10 := q * 10
    if 1 ≤ q10 then -((k : Int) + 1)
    else decExpSearch fuel q10 (k + 1)

/-- Binary digit count, a kernel-computable bound on the base-two logarithm
used to size parser fuel. -/
def binLength (n : Nat) : Nat := (Nat.toDigits 2 n).length

/-- Decimal exponent `e` with `10^e ≤ q < 10^(e+1)` for positive `q`. -/
def decExp (q : ℚ) : Int :=
  if 1 ≤ q then ((Nat.toDigits 10 (ratFloor q).toNat).length : Int) - 1
  else decExpSearch (binLength q.den + 4) q 0

/-- Digits of `|q|` in scientific notation with `p` digits after the point —
the `%e`-style conversion of the C library on the exact value. -/
def sciDigits (q : ℚ) (p : Nat) (upper : Bool) : List Char :=
  let eChar := if upper then 'E' else 'e'
  if q = 0 then
    (if p = 0 then ['0'] else '0' :: '.' :: List.replicate p '0') ++ eChar :: '+' :: ['0', '0']
  else
    let aq := |q|
    let e := decExp aq
    let m := roundHalfEven (aq / qpowInt 10 e * (10 : ℚ) ^ p)
    let (m, e) := if (10 : Int) ^ (p + 1) ≤ m then (((10 : Int) ^ p : Int), e + 1) else (m, e)
    let ds := Nat.toDigits 10 m.toNat
    let mant := if p = 0 then ds else ds.take 1 ++ '.' :: ds.drop 1
    mant ++ eChar :: (if e < 0 then '-' else '+') :: expTwoDigits e.natAbs

/-- Strip trailing zeros (and a bare trailing decimal point), as `%g` does. -/
def stripTrailingZeros (ds : List Char) : List Char :=
  let r := ds.reverse.dropWhile (fun c => c = '0')
  let r := if r.head? = some '.' then r.tail else r
  r.reverse

/-- Digits of `|q|` in `%g`-style general notation with precision `p0`
(`p0 ≤ 0` behaves as the C library: zero precision means one significant
digit; a negative precision means the default of six). -/
def generalDigits (q : ℚ) (p0 : Int) (upper : Bool) : List Char :=
  let P : Nat := if p0 < 0 then 6 else if p0 = 0 then 1 else p0.toNat
  if q = 0 then ['0']
  else
    let aq := |q|
    let X := decExp aq
    if (P : Int) > X ∧ X ≥ -4 then stripTrailingZeros (fixedDigits q ((P - 1 - X.toNat) : Nat))
    else
      let mant := sciDigits aq (P - 1) upper
      let mantPart := mant.takeWhile (fun c => c ≠ 'e' ∧ c ≠ 'E')
      let expPart := mant.dropWhile (fun c => c ≠ 'e' ∧ c ≠ 'E')
      stripTrailingZeros mantPart ++ expPart

/-- Model of `ostream << (long double)` under the current stream state:
chooses fixed, scientific or general digits, adds the sign, applies grouping
to the integer part when imbued, and pads to the field width. -/
def streamInsertFloat (st : StreamState) (q : ℚ) : List Char :=
  let body :=
    match st.floatfield with
    | .fixed => fixedDigits q (if st.precision < 0 then 6 else st.precision.toNat)
    | .scientific => sciDigits q (if st.precision < 0 then 6 else st.precision.toNat) st.uppercase
    | .general => generalDigits q st.precision st.uppercase
  let body := if st.grouping then groupIntegerPart body else body
  let sign := if q < 0 then ['-'] else if st.showpos then ['+'] else []
  padNumeric st sign body

/-- The constant `precision` member of `FormatDynamicDecimal`:
`sqrt(numeric_limits<double>::epsilon())`, i.e. exactly `2^-26`. -/
def epsFDD : ℚ := 1 / 67108864

/-- The fractional-digit extraction loop of `FormatDynamicDecimal`
(format.cpp): extract decimal digits of the fractional part until the
remainder falls below `epsFDD`, counting the leading zero digits.  The loop
terminates in the source because a `long double` has finitely many
fractional bits; the fuel passed by the caller covers every binary- or
decimal-representable value. -/
def fddFracLoop : Nat → ℚ → Bool → Int → Int → Int × Int
  | 0, _, _, n, lz => (n, lz)
  | fuel + 1, f, inLZ, n, lz =>
    if epsFDD < f then
      let f10 := f * 10
      let t : Int := ratFloor f10
      if inLZ ∧ (t : ℚ) < epsFDD then fddFracLoop fuel (f10 - (t : ℚ)) true (n + 1) (lz + 1)
      else fddFracLoop fuel (f10 - (t : ℚ)) false (n + 1) lz
    else (n, lz)

/-- The trailing-zero count of `FormatDynamicDecimal` (format.cpp): how many
times ten divides the integer version of the value.  Modeled without the
32-bit wrap of the `unsigned factor` loop variable. -/
def countTrailingZeroesAux : Nat → Nat → Nat → Nat
  | 0, _, _ => 0
  | fuel + 1, n, factor => if n % factor = 0 then 1 + countTrailingZeroesAux fuel n (factor * 10) else 0

/-- Mirror of `FormatDynamicDecimal::operator<<` (format.cpp): the
adaptive-precision decimal algorithm.  `std::log10` cast to `unsigned` is
modeled as the exact decimal digit count minus one (it is only evaluated for
values of magnitude at least one). -/
def FormatDynamicDecimal (st : StreamState) (value : ℚ)
    (minPrecision maxPrecision scientificCeil : Int) : List Char :=
  let scientificLimit : Int := 5
  let intVersion : Nat := (ratTrunc |value|).toNat
  let intLogVersion : Int := if intVersion > 0 then ((Nat.toDigits 10 intVersion).length : Int) - 1 else 0
  let intDigits : Int := if intVersion > 0 then intLogVersion + 1 else 0
  let aboveScientificCeil : Bool := intVersion > 0 ∧ intDigits > scientificCeil ∧ scientificCeil > 0
  let (n, flags) :=
    if aboveScientificCeil then
      let trailingZeroes : Int := (countTrailingZeroesAux 32 intVersion 10 : Int)
      (intLogVersion - trailingZeroes, FloatFieldMode.fixed)
    else if intDigits < maxPrecision then
      let f0 := |value - ((ratTrunc value : Int) : ℚ)|
      let (n0, lz) := fddFracLoop (binLength value.den + 2) f0 (intVersion = 0) 0 0
      let n1 := max n0 minPrecision
      if n1 ≥ scientificLimit ∧ lz > 0 then (n1 - (lz + 1), FloatFieldMode.scientific)
      else (n1, FloatFieldMode.fixed)
    else ((0 : Int), FloatFieldMode.fixed)
  let n := min n maxPrecision
  let (n, flags) :=
    if aboveScientificCeil then
      ((if n = maxPrecision then n - 1 else n), FloatFieldMode.scientific)
    else if intDigits + n > maxPrecision then
      ((if intDigits < n then n - intDigits else 0), flags)
    else (n, flags)
  streamInsertFloat { st with precision := n, floatfield := flags } value

/-- Result bundle of `PreprocessStreamForDecimal` (format.cpp): the stream
state, the (possibly percent-scaled) value, and the out-parameters
`useValue`, `useDynamic`, `minPrecision`, `maxPrecision`, `scientificCeil`. -/
structure DecimalPre where
  st : StreamState
  value : ℚ
  useValue : Bool
  useDynamic : Bool
  minPrecision : Int
  maxPrecision : Int
  scientificCeil : Int
deriving Repr

/-- Mirror of `PreprocessStreamForDecimal` (format.cpp).  `maxPrecisionIn` is
the in-out maximum precision supplied by the caller.  The `n` presentation
type imbues `locale("")`; the host environment locale is modeled as the
classic locale (no grouping change). -/
def PreprocessStreamForDecimal (sp : BasicFormatSpecifiers) (value : ℚ) (maxPrecisionIn : Int) : DecimalPre :=
  let st : StreamState := {}
  let minPrecision : Int := 1
  let scientificCeil : Int := 0
  let maxPrecision : Int := maxPrecisionIn
  let st := { st with width := sp.width }
  let st := if sp.fill ≠ '\x00' then { st with fill := sp.fill } else st
  let st := if sp.precision ≥ 0 then { st with precision := sp.precision } else st
  let st := if sp.thousandSeparator then { st with grouping := true } else st
  let st :=
    if sp.sign = '+' then { st with showpos := true }
    else if sp.sign = ' ' then { st with width := 0 }
    else st
  let st :=
    if sp.align = '<' then { st with adjust := .left }
    else if sp.align = '=' then { st with adjust := .internal }
    else if sp.align = '^' then { st with width := 0 }
    else { st with adjust := .right }
  if sp.type = 'e' ∨ sp.type = 'E' then
    let st := if sp.type = 'E' then { st with uppercase := true } else st
    let (st, useDynamic) :=
      if sp.precision = -1 then ({ st with precision := 6 }, false) else (st, true)
    { st := { st with floatfield := .scientific }, value := value, useValue := true,
      useDynamic := useDynamic, minPrecision := minPrecision, maxPrecision := maxPrecision,
      scientificCeil := scientificCeil }
  else if sp.type = 'g' ∨ sp.type = 'G' then
    let st := if sp.type = 'G' then { st with uppercase := true } else st
    { st := st, value := value, useValue := true, useDynamic := true,
      minPrecision := 0, maxPrecision := 6, scientificCeil := 6 }
  else if sp.type = 'n' then
    { st := st, value := value, useValue := true, useDynamic := true,
      minPrecision := 0, maxPrecision := 6, scientificCeil := 6 }
  else if sp.type = '%' ∨ sp.type = 'f' ∨ sp.type = 'F' then
    let value := if sp.type = '%' then value * 100 else value
    let st := if sp.type = '%' ∨ sp.type = 'F' then { st with uppercase := true } else st
    let (st, useDynamic) :=
      if sp.precision = -1 then ({ st with precision := 6 }, false) else (st, true)
    { st := { st with floatfield := .fixed }, value := value, useValue := true,
      useDynamic := useDynamic, minPrecision := minPrecision, maxPrecision := maxPrecision,
      scientificCeil := scientificCeil }
  else
    { st := st, value := value, useValue := true, useDynamic := true,
      minPrecision := minPrecision, maxPrecision := maxPrecision, scientificCeil := scientificCeil }

/-- Mirror of `PostprocessStreamForDecimal` (format.cpp): manual composition
of left/sign/center padding, alternate-form base tag, the written digits,
the percent sign, and right padding. -/
def PostprocessStreamForDecimal (writtenString : List Char) (sp : BasicFormatSpecifiers) (value : ℚ) : List Char :=
  let contentWidth : Int := writtenString.length
  let addPadding : Bool := sp.sign = ' ' ∨ sp.align = '^'
  let fc : Char := if sp.fill ≠ '\x00' then sp.fill else ' '
  let (writtenString, contentWidth) :=
    if sp.sign = ' ' ∧ 0 ≤ value then (writtenString, contentWidth + 1)
    else if sp.sign = ' ' ∧ value < 0 ∧ sp.align = '=' then (writtenString.drop 1, contentWidth)
    else (writtenString, contentWidth)
  let contentWidth :=
    if sp.alternateForm ∧ (sp.type = 'b' ∨ sp.type = 'o' ∨ sp.type = 'x' ∨ sp.type = 'X') then
      contentWidth + 2
    else contentWidth
  let (pl, pc, pr) :=
    if addPadding then
      if sp.align = '<' then ((0 : Int), (0 : Int), sp.width - contentWidth)
      else if sp.align = '^' then
        let l := (sp.width - contentWidth) / 2
        (l, 0, sp.width - l - contentWidth)
      else if sp.align = '=' then (0, sp.width - contentWidth, 0)
      else (sp.width - contentWidth, 0, 0)
    else (0, 0, 0)
  let padL := if addPadding ∧ pl > 0 then List.replicate pl.toNat fc else []
  let signChars :=
    if sp.sign = ' ' ∧ 0 ≤ value then [' ']
    else if sp.sign = ' ' ∧ value < 0 ∧ sp.align = '=' then ['-']
    else []
  let padC := if addPadding ∧ pc > 0 then List.replicate pc.toNat fc else []
  let baseTag : List Char :=
    if sp.alternateForm then
      match sp.type with
      | 'b' => ['0', 'b']
      | 'o' => ['0', 'o']
      | 'x' => ['0', 'x']
      | 'X' => ['0', 'X']
      | _ => []
    else []
  let percentTag := if sp.type = '%' then ['%'] else []
  let padR := if addPadding ∧ pr > 0 then List.replicate pr.toNat fc else []
  padL ++ signChars ++ padC ++ baseTag ++ writtenString ++ percentTag ++ padR

/-- Mirror of `PreprocessStreamForInteger` (format.cpp).  The binary case
prints the `bitset<64>` string (leading zeros stripped down to one digit)
immediately and reports `useValue = false`; the returned string is that
immediate output. -/
def PreprocessStreamForInteger (sp : BasicFormatSpecifiers) (value : Int) : StreamState × Bool × List Char :=
  let st : StreamState := {}
  let st := { st with width := sp.width }
  let st := if sp.fill ≠ '\x00' then { st with fill := sp.fill } else st
  let st := if sp.thousandSeparator then { st with grouping := true } else st
  let st :=
    if sp.sign = '+' then { st with showpos := true }
    else if sp.sign = ' ' then { st with width := 0 }
    else st
  let st :=
    if sp.align = '<' then { st with adjust := .left }
    else if sp.align = '=' then { st with adjust := .internal }
    else if sp.align = '^' then { st with width := 0 }
    else { st with adjust := .right }
  match sp.type with
  | 'b' =>
    let st := { st with showpos := false }
    let binStr := Nat.toDigits 2 (toUnsigned64 value)
    (st, false, streamInsertStr st binStr)
  | 'o' => ({ st with base := 8 }, true, [])
  | 'X' => ({ st with base := 16, uppercase := true }, true, [])
  | 'x' => ({ st with base := 16 }, true, [])
  | _ => (st, true, [])

/-- Mirror of `PostprocessStreamForInteger` (format.cpp). -/
def PostprocessStreamForInteger (writtenString : List Char) (sp : BasicFormatSpecifiers) (value : Int) : List Char :=
  let contentWidth : Int := writtenString.length
  let addPadding : Bool := sp.sign = ' ' ∨ sp.align = '^'
  let fc : Char := if sp.fill ≠ '\x00' then sp.fill else ' '
  let (writtenString, contentWidth) :=
    if sp.sign = ' ' ∧ 0 ≤ value then (writtenString, contentWidth + 1)
    else if sp.sign = ' ' ∧ value < 0 ∧ sp.align = '=' then (writtenString.drop 1, contentWidth)
    else (writtenString, contentWidth)
  let contentWidth :=
    if sp.alternateForm ∧ (sp.type = 'b' ∨ sp.type = 'o' ∨ sp.type = 'x' ∨ sp.type = 'X') then
      contentWidth + 2
    else contentWidth
  let (pl, pc, pr) :=
    if addPadding then
      if sp.align = '<' then ((0 : Int), (0 : Int), sp.width - contentWidth)
      else if sp.align = '^' then
        let l := (sp.width - contentWidth) / 2
        (l, 0, sp.width - l - contentWidth)
      else if sp.align = '=' then (0, sp.width - contentWidth, 0)
      else (sp.width - contentWidth, 0, 0)
    else (0, 0, 0)
  let padL := if addPadding ∧ pl > 0 then List.replicate pl.toNat fc else []
  let signChars :=
    if sp.sign = ' ' ∧ 0 ≤ value then [' ']
    else if sp.sign = ' ' ∧ value < 0 ∧ sp.align = '=' then ['-']
    else []
  let padC := if addPadding ∧ pc > 0 then List.replicate pc.toNat fc else []
  let baseTag : List Char :=
    if sp.alternateForm then
      match sp.type with
      | 'b' => ['0', 'b']
      | 'o' => ['0', 'o']
      | 'x' => ['0', 'x']
      | 'X' => ['0', 'X']
      | _ => []
    else []
  let padR := if addPadding ∧ pr > 0 then List.replicate pr.toNat fc else []
  padL ++ signChars ++ padC ++ baseTag ++ writtenString ++ padR

/-- Mirror of `PreprocessStreamForString` (format.cpp): width, fill and
alignment (left being the string default). -/
def PreprocessStreamForString (sp : BasicFormatSpecifiers) : StreamState :=
  let st : StreamState := {}
  let st := { st with width := sp.width }
  let st := if sp.fill ≠ '\x00' then { st with fill := sp.fill } else st
  if sp.align = '>' then { st with adjust := .right }
  else if sp.align = '=' then { st with adjust := .internal }
  else if sp.align = '^' then { st with width := 0 }
  else { st with adjust := .left }

/-- Mirror of `PostprocessStreamForString` (format.cpp): precision truncates
the content, and center alignment is composed manually. -/
def PostprocessStreamForString (writtenString : List Char) (sp : BasicFormatSpecifiers) : List Char :=
  let contentWidth : Int := writtenString.length
  let addPadding : Bool := sp.align = '^'
  let fc : Char := if sp.fill ≠ '\x00' then sp.fill else ' '
  let (writtenString, contentWidth, addPadding) :=
    if sp.precision > 0 ∧ sp.precision < contentWidth then
      (writtenString.take sp.precision.toNat, sp.precision,
       if sp.width > sp.precision then true else addPadding)
    else (writtenString, contentWidth, addPadding)
  let (pl, pr) :=
    if addPadding then
      if sp.align = '<' then ((0 : Int), sp.width - contentWidth)
      else if sp.align = '^' then
        let l := (sp.width - contentWidth) / 2
        (l, sp.width - l - contentWidth)
      else (sp.width - contentWidth, 0)
    else (0, 0)
  (if addPadding ∧ pl > 0 then List.replicate pl.toNat fc else []) ++ writtenString ++
    (if addPadding ∧ pr > 0 then List.replicate pr.toNat fc else [])

/-- Mirror of `FormatType(int64_t, ...)` (format.cpp); the `short`, `int` and
`bool` overloads funnel here by casting. -/
def FormatTypeInt (value : Int) (formatSpecifier : String) : Except FormatError String := do
  let sp ← ConvertToBasicFormatSpecifiers formatSpecifier.data
  let (st, useValue, pre) := PreprocessStreamForInteger sp value
  let written := if useValue then streamInsertInt st value else pre
  .ok (String.mk (PostprocessStreamForInteger written sp value))

/-- Mirror of `FormatType(long double, ...)` (format.cpp); the `float` and
`double` overloads funnel here by casting. -/
def FormatTypeFloat (value : ℚ) (formatSpecifier : String) : Except FormatError String := do
  let sp ← ConvertToBasicFormatSpecifiers formatSpecifier.data
  let pre := PreprocessStreamForDecimal sp value 16
  let written :=
    if pre.useValue then
      if pre.useDynamic ∧ sp.precision = -1 then
        FormatDynamicDecimal pre.st pre.value pre.minPrecision pre.maxPrecision pre.scientificCeil
      else streamInsertFloat pre.st pre.value
    else []
  .ok (String.mk (PostprocessStreamForDecimal written sp pre.value))

/-- Mirror of `FormatType(const char*, ...)` (format.cpp); the `std::string`
overload funnels here. -/
def FormatTypeString (value : String) (formatSpecifier : String) : Except FormatError String := do
  let sp ← ConvertToBasicFormatSpecifiers formatSpecifier.data
  let st := PreprocessStreamForString sp
  let written := streamInsertStr st value.data
  .ok (String.mk (PostprocessStreamForString written sp))

/-- `std::to_string` on a `long double`: fixed notation with six digits
after the point. -/
def toStringLongDouble (q : ℚ) : String :=
  String.mk ((if q < 0 then ['-'] else []) ++ fixedDigits q 6)

/-- Whitespace as classified by `isspace` in the C locale. -/
def isSpaceChar (c : Char) : Bool :=
  c = ' ' ∨ c = '\t' ∨ c = '\n' ∨ c = '\r' ∨ c = '\x0b' ∨ c = '\x0c'

/-- Greedy digit accumulation for the `strtoll`/`strtold` models. -/
def takeDigitsAcc : List Char → Int → Int × Nat × List Char
  | [], acc => (acc, 0, [])
  | c :: rest, acc =>
    if isDigitChar c then
      let (v, k, rem) := takeDigitsAcc rest (acc * 10 + ((c.toNat : Int) - 48))
      (v, k + 1, rem)
    else (acc, 0, c :: rest)

/-- Model of `std::strtoll(value, _, 10)`: optional whitespace, optional
sign, greedy decimal digits; no digits yields zero.  The clamping of
out-of-range values to `LLONG_MIN`/`LLONG_MAX` is not modeled. -/
def strtollModel (s : List Char) : Int :=
  let s := s.dropWhile isSpaceChar
  let (neg, s) :=
    match s with
    | '-' :: rest => (true, rest)
    | '+' :: rest => (false, rest)
    | _ => (false, s)
  let (v, _, _) := takeDigitsAcc s 0
  if neg then -v else v

/-- Model of `std::strtold`: optional whitespace, optional sign, decimal
digits with an optional fractional part and an optional decimal exponent; no
digits yields zero.  Hexadecimal floats and `inf`/`nan` forms are not
modeled. -/
def strtoldModel (s : List Char) : ℚ :=
  let s := s.dropWhile isSpaceChar
  let (neg, s) :=
    match s with
    | '-' :: rest => (true, rest)
    | '+' :: rest => (false, rest)
    | _ => (false, s)
  let (ip, ipCount, s) := takeDigitsAcc s 0
  let (fp, fpCount, s) :=
    match s with
    | '.' :: rest => takeDigitsAcc rest 0
    | _ => ((0 : Int), 0, s)
  if ipCount = 0 ∧ fpCount = 0 then 0
  else
    let mag : ℚ := (ip : ℚ) + (fp : ℚ) / (10 : ℚ) ^ fpCount
    let expon : Int :=
      match s with
      | 'e' :: '-' :: rest => -(takeDigitsAcc rest 0).1
      | 'e' :: '+' :: rest => (takeDigitsAcc rest 0).1
      | 'e' :: rest => (takeDigitsAcc rest 0).1
      | 'E' :: '-' :: rest => -(takeDigitsAcc rest 0).1
      | 'E' :: '+' :: rest => (takeDigitsAcc rest 0).1
      | 'E' :: rest => (takeDigitsAcc rest 0).1
      | _ => 0
    let mag := mag * qpowInt 10 expon
    if neg then -mag else mag

/-- `std::abs` on `int64_t` (the undefined behaviour at `INT64_MIN` is not
modeled — `Int` does not overflow). -/
def intAbsCpp (v : Int) : Int := if v < 0 then -v else v

/-- Newton iteration for the integer square root (kernel-computable; the
fuel covers the logarithmic convergence from the initial guess). -/
def isqrtAux : Nat → Nat → Nat → Nat
  | 0, _, x => x
  | fuel + 1, n, x =>
    let y := (x + n / x) / 2
    if y < x then isqrtAux fuel n y else x

/-- Integer square root (largest `r` with `r * r ≤ n`). -/
def isqrt (n : Nat) : Nat := if n ≤ 1 then n else isqrtAux (binLength n + 4) n n

/-- `std::sqrt` applied to an integral argument returns the `double` nearest
the real square root.  The embedding is exact on perfect squares (the only
inputs this development evaluates) and idealizes other arguments to the
floor of the root; negative arguments (NaN in C) are idealized to zero. -/
def modelSqrt (v : Int) : ℚ := (isqrt v.toNat : ℚ)

/-- Mirror of `ConvertAndFormatType(long double, ...)` (format.cpp): applies
the explicit conversion and renders; the `float`/`double` overloads funnel
here.  This overload never consumes selectors and never modifies the
fragment. -/
def ConvertAndFormatTypeFloat (value : ℚ) (fragment : FormatFragment) :
    Except FormatError (FormatFragment × String) :=
  match fragment.explicitConversion with
  | 's' => do
    let out ← FormatTypeString (toStringLongDouble value) fragment.formatSpecifier
    .ok (fragment, out)
  | 'r' => do
    let out ← FormatTypeString (toStringLongDouble value) fragment.formatSpecifier
    .ok (fragment, out)
  | 'i' => do
    let out ← FormatTypeInt (ratTrunc value) fragment.formatSpecifier
    .ok (fragment, out)
  | _ => do
    let out ← FormatTypeFloat value fragment.formatSpecifier
    .ok (fragment, out)

/-- The switch at the end of `ConvertAndFormatType(int64_t, ...)`
(format.cpp): explicit conversion and final rendering of an integral
value. -/
def ConvertAndFormatTypeIntFinish (value : Int) (fragment : FormatFragment) :
    Except FormatError (FormatFragment × String) :=
  match fragment.explicitConversion with
  | 's' => do
    let out ← FormatTypeString (toString value) fragment.formatSpecifier
    .ok (fragment, out)
  | 'r' => do
    let out ← FormatTypeString (toString value) fragment.formatSpecifier
    .ok (fragment, out)
  | 'd' => do
    let out ← FormatTypeFloat (value : ℚ) fragment.formatSpecifier
    .ok (fragment, out)
  | _ => do
    let out ← FormatTypeInt value fragment.formatSpecifier
    .ok (fragment, out)

/-- Selector loop of `ConvertAndFormatType(int64_t, ...)` (format.cpp),
recursing structurally on the selector queue (always the fragment's own
queue): pops one selector per step, applying the named value mutator and
recursing; `sqrt` switches to the floating-point overload; an unrecognized
selector is consumed and rendering proceeds. -/
def ConvertAndFormatTypeIntAux : List String → Int → FormatFragment →
    Except FormatError (FormatFragment × String)
  | selector :: rest, value, fragment =>
    if selector = "abs" then
      ConvertAndFormatTypeIntAux rest (intAbsCpp value) { fragment with selectors := rest }
    else if selector = "sign" then
      ConvertAndFormatTypeIntAux rest (if value < 0 then -1 else 1) { fragment with selectors := rest }
    else if selector = "inc" then
      ConvertAndFormatTypeIntAux rest (value + 1) { fragment with selectors := rest }
    else if selector = "dec" then
      ConvertAndFormatTypeIntAux rest (value - 1) { fragment with selectors := rest }
    else if selector = "sqrt" then
      ConvertAndFormatTypeFloat (modelSqrt value) { fragment with selectors := rest }
    else ConvertAndFormatTypeIntFinish value { fragment with selectors := rest }
  | [], value, fragment => ConvertAndFormatTypeIntFinish value fragment

/-- Mirror of `ConvertAndFormatType(int64_t, ...)` (format.cpp). -/
def ConvertAndFormatTypeInt (value : Int) (fragment : FormatFragment) :
    Except FormatError (FormatFragment × String) :=
  ConvertAndFormatTypeIntAux fragment.selectors value fragment

/-- Mirror of `ConvertAndFormatType(bool, ...)` (format.cpp): when the
format specifier is empty the conversion is overridden to `s` (string
rendering), regardless of any explicit conversion; otherwise the explicit
conversion decides, the default being the `FormatType(bool)` integral
cast. -/
def ConvertAndFormatTypeBool (value : Bool) (fragment : FormatFragment) :
    Except FormatError (FormatFragment × String) :=
  let convertToType := if fragment.formatSpecifier.isEmpty then 's' else fragment.explicitConversion
  match convertToType with
  | 's' => do
    let out ← FormatTypeString (if value then "True" else "False") fragment.formatSpecifier
    .ok (fragment, out)
  | 'r' => do
    let out ← FormatTypeString (if value then "True" else "False") fragment.formatSpecifier
    .ok (fragment, out)
  | 'i' => do
    let out ← FormatTypeInt (if value then 1 else 0) fragment.formatSpecifier
    .ok (fragment, out)
  | 'd' => do
    let out ← FormatTypeFloat (if value then 1 else 0) fragment.formatSpecifier
    .ok (fragment, out)
  | _ => do
    let out ← FormatTypeInt (if value then 1 else 0) fragment.formatSpecifier
    .ok (fragment, out)

/-- Mirror of `ConvertAndFormatType(const char*, ...)` (format.cpp); the
`std::string` overload funnels here. -/
def ConvertAndFormatTypeStr (value : String) (fragment : FormatFragment) :
    Except FormatError (FormatFragment × String) :=
  match fragment.explicitConversion with
  | 'i' => do
    let out ← FormatTypeInt (strtollModel value.data) fragment.formatSpecifier
    .ok (fragment, out)
  | 'd' => do
    let out ← FormatTypeFloat (strtoldModel value.data) fragment.formatSpecifier
    .ok (fragment, out)
  | _ => do
    let out ← FormatTypeString value fragment.formatSpecifier
    .ok (fragment, out)

mutual

/-- `FormatType` dispatch over the argument universe, as overload resolution
performs it in C++: booleans cast to `int64_t`, maps render as
`{key: value, ...}` (the `FORMAT_MAP_*` delimiters around pair-rendered
elements), each element formatted under the shared specifier. -/
def FormatTypeValue : Value → String → Except FormatError String
  | .vInt n, spec => FormatTypeInt n spec
  | .vFloat q, spec => FormatTypeFloat q spec
  | .vBool b, spec => FormatTypeInt (if b then 1 else 0) spec
  | .vStr s, spec => FormatTypeString s spec
  | .vMap entries, spec => do
    let inner ← FormatTypeValueEntries entries spec
    .ok ("\x7b" ++ inner ++ "\x7d")

/-- Element loop of the map `FormatType` (format.h): each entry renders as
the pair `key: value` (the `FORMAT_PAIR_*` delimiters), entries separated by
`", "`. -/
def FormatTypeValueEntries : ValueEntries → String → Except FormatError String
  | .nil, _ => .ok ""
  | .cons k v rest, spec => do
    let keyStr ← FormatTypeString k spec
    let valStr ← FormatTypeValue v spec
    let restStr ← FormatTypeValueEntries rest spec
    .ok (keyStr ++ ": " ++ valStr ++ (match rest with | .nil => "" | _ => ", ") ++ restStr)

end

mutual

/-- `ConvertAndFormatType` dispatch over the argument universe, as overload
resolution performs it in C++.  The map overload (format.h) pops a selector
and recurses into the looked-up value; a missing key falls through to
rendering the map itself.  All modeled overloads return `true` in C++, so
the boolean result is dropped. -/
def ConvertAndFormatTypeValue : Value → FormatFragment → Except FormatError (FormatFragment × String)
  | .vInt n, fragment => ConvertAndFormatTypeInt n fragment
  | .vFloat q, fragment => ConvertAndFormatTypeFloat q fragment
  | .vBool b, fragment => ConvertAndFormatTypeBool b fragment
  | .vStr s, fragment => ConvertAndFormatTypeStr s fragment
  | .vMap entries, fragment =>
    match fragment.selectors with
    | selector :: rest =>
      ConvertAndFormatTypeMapFind entries entries selector { fragment with selectors := rest }
    | [] => do
      let out ← FormatTypeValue (.vMap entries) fragment.formatSpecifier
      .ok (fragment, out)

/-- The map overload's key search (`count` followed by `at` in format.h),
walking the entries: on a hit, recurse into the bound value with the popped
selector queue; when the key is absent, fall through to rendering the whole
map under the fragment's specifier. -/
def ConvertAndFormatTypeMapFind (whole : ValueEntries) :
    ValueEntries → String → FormatFragment → Except FormatError (FormatFragment × String)
  | .nil, _, fragment => do
    let out ← FormatTypeValue (.vMap whole) fragment.formatSpecifier
    .ok (fragment, out)
  | .cons k v rest, selector, fragment =>
    if k = selector then ConvertAndFormatTypeValue v fragment
    else ConvertAndFormatTypeMapFind whole rest selector fragment

end

/-- Mirror of `TranslateEnvironmentFragment` (format.cpp): an environment
fragment resolves its variable (a missing variable becomes the empty
string), renders it as a string value, and stores the rendered text. -/
def TranslateEnvironmentFragment (env : String → Option String) (fragment : FormatFragment) :
    Except FormatError FormatFragment :=
  if fragment.index = -2 then do
    let envValue := (env fragment.text).getD ""
    let (_, out) ← ConvertAndFormatTypeStr envValue fragment
    .ok { fragment with text := out }
  else .ok fragment

/-- Tail of `ParseFormatParameter` (format.cpp) after the index or
environment name has been read: selectors, explicit conversion, specifier,
eager environment translation, the required closing brace, and the trailing
plain-text fragment. -/
def ParseFormatParameterRest (env : String → Option String) (fragment : FormatFragment)
    (parameterIndex nextParameterIndex : Int) (s : List Char) (pos : Nat) :
    Except FormatError (List FormatFragment × List Char × Nat × Int) := do
  let fragment := InitializeFormatFragment fragment parameterIndex
  let (fragment, s, pos) ← ReadSelectors s pos fragment
  let (fragment, s, pos) ← ReadExplicitTypeConversion s pos fragment
  let (fragment, s, pos) ← ParseFormatSpecifier s pos fragment
  let fragment ← TranslateEnvironmentFragment env fragment
  let (s, pos) := SkipWhitespace s pos
  match s with
  | '\x7d' :: rest =>
    if rest.isEmpty then .ok ([fragment], [], pos + 1, nextParameterIndex)
    else do
      let (txt, rem, p2) ← GetPlainTextFragment rest (pos + 1) '\x00'
      if txt.isEmpty then .ok ([fragment], rem, p2, nextParameterIndex)
      else .ok ([fragment, { InitializeFormatFragment {} (-1) with text := String.mk txt }], rem, p2, nextParameterIndex)
  | _ => .error (.illegalFormat pos "Expected format closing bracket")

/-- Mirror of `ParseFormatParameter` (format.cpp): parses one field starting
at its opening brace, together with the plain text that follows it.  A field
with an explicit or auto-assigned index `i` sets the running
`nextParameterIndex` to `i + 1`; an environment field leaves it unchanged. -/
def ParseFormatParameter (env : String → Option String) (s : List Char) (pos : Nat)
    (nextParameterIndex : Int) : Except FormatError (List FormatFragment × List Char × Nat × Int) :=
  match s with
  | '\x7b' :: afterBrace =>
    let (s1, pos1) := SkipWhitespace afterBrace (pos + 1)
    (match s1 with
     | '$' :: _ =>
       let (name, s2, pos2) := ReadEnvironmentVariableName s1 pos1
       ParseFormatParameterRest env { text := String.mk name } (-2) nextParameterIndex s2 pos2
     | _ => do
       let (parameterIndex, s2, pos2) ← ParseIntegerNumber s1 pos1 false nextParameterIndex
       ParseFormatParameterRest env {} parameterIndex (parameterIndex + 1) s2 pos2)
  | _ => .error (.illegalFormat pos "expected format parameter start")

/-- The `while (formatStr[pos])` loop of `ParseFormatStr` (format.cpp).
Every iteration consumes at least the opening brace, so the input length
bounds the iteration count and serves as fuel. -/
def ParseFormatStrLoop (env : String → Option String) :
    Nat → List Char → Nat → Int → Except FormatError (List FormatFragment)
  | _, [], _, _ => .ok []
  | 0, _ :: _, pos, _ => .error (.illegalFormat pos "parser fuel exhausted")
  | fuel + 1, s, pos, next => do
    let (frags, rest, pos2, next2) ← ParseFormatParameter env s pos next
    let more ← ParseFormatStrLoop env fuel rest pos2 next2
    .ok (frags ++ more)

/-- Mirror of `ParseFormatStr` (format.cpp): leading plain text goes
directly to the output (returned first), then fields and their trailing
texts become fragments. -/
def ParseFormatStr (env : String → Option String) (s : List Char) :
    Except FormatError (String × List FormatFragment) := do
  let (lead, rest, pos) ← GetPlainTextFragment s 0 '\x00'
  let frags ← ParseFormatStrLoop env (rest.length + 1) rest pos 0
  .ok (String.mk lead, frags)

/-- Mirror of `FormatParameter<ArgumentIndex>` (format.h): render every
fragment whose index matches the argument position and mark it handled. -/
def FormatParameter (i : Nat) (arg : Value) : List FormatFragment → Except FormatError (List FormatFragment)
  | [] => .ok []
  | fragment :: rest =>
    if fragment.index = (i : Int) then do
      let (f2, text) ← ConvertAndFormatTypeValue arg fragment
      let rest2 ← FormatParameter i arg rest
      .ok ({ f2 with text := text, handled := true } :: rest2)
    else do
      let rest2 ← FormatParameter i arg rest
      .ok (fragment :: rest2)

/-- Mirror of `FormatParameters<ArgumentIndex>` (format.h): bind the
arguments in order, starting at position `i`. -/
def FormatParametersFrom (i : Nat) : List Value → List FormatFragment → Except FormatError (List FormatFragment)
  | [], fragments => .ok fragments
  | arg :: args, fragments => do
    let fragments2 ← FormatParameter i arg fragments
    FormatParametersFrom (i + 1) args fragments2

/-- Argument binding for a whole call (`FormatParameters<0>`). -/
def FormatParameters (args : List Value) (fragments : List FormatFragment) :
    Except FormatError (List FormatFragment) :=
  FormatParametersFrom 0 args fragments

/-- Mirror of `OutputFragments` (format.cpp).  `strict` models the absence of
`FORMAT_DISABLE_THROW_OUT_OF_RANGE` (the default build): an unhandled
fragment raises `std::out_of_range`; with the macro defined the texts are
concatenated unconditionally. -/
def OutputFragments (strict : Bool) : List FormatFragment → Except FormatError String
  | [] => .ok ""
  | fragment :: rest =>
    if strict ∧ ¬fragment.handled then .error (.outOfRange fragment.index)
    else do
      let out ← OutputFragments strict rest
      .ok (fragment.text ++ out)

/-- Mirror of the variadic `Format` (format.h): parse, bind the positional
arguments, and assemble the fragments after the leading text.  `strict`
selects the default build (`true`) or the `FORMAT_DISABLE_THROW_OUT_OF_RANGE`
build (`false`); `env` is the process environment. -/
def Format (strict : Bool) (env : String → Option String) (formatStr : String) (args : List Value) :
    Except FormatError String := do
  let (lead, fragments) ← ParseFormatStr env formatStr.data
  let fragments ← FormatParameters args fragments
  let out ← OutputFragments strict fragments
  .ok (lead ++ out)

/-- The empty process environment (used for concrete evaluations). -/
def emptyEnv : String → Option String := fun _ => none

/-- Spec-side predicate, following the claim wording for escaped literal
text: the template contains no field (no unescaped opening brace) and every
closing brace is doubled — each brace occurs only inside a `\x7b\x7b` or
`\x7d\x7d` pair. -/
def EscapedLiteralOnly : List Char → Bool
  | [] => true
  | '\x7b' :: '\x7b' :: rest => EscapedLiteralOnly rest
  | '\x7b' :: _ => false
  | '\x7d' :: '\x7d' :: rest => EscapedLiteralOnly rest
  | '\x7d' :: _ => false
  | _ :: rest => EscapedLiteralOnly rest

/-- Spec-side escape un-doubling, following the claim wording: each doubled
brace becomes a single brace and every other character is copied verbatim in
order. -/
def EscapeUndouble : List Char → List Char
  | [] => []
  | '\x7b' :: '\x7b' :: rest => '\x7b' :: EscapeUndouble rest
  | '\x7d' :: '\x7d' :: rest => '\x7d' :: EscapeUndouble rest
  | c :: rest => c :: EscapeUndouble rest

/-- Decidable equality of results, for settling concrete renders by
`decide`. -/
instance instDecEqExcept {ε α : Type} [DecidableEq ε] [DecidableEq α] : DecidableEq (Except ε α) :=
  fun x y =>
  match x, y with
  | .ok a, .ok b => if h : a = b then isTrue (by rw [h]) else isFalse (by simp [h])
  | .error a, .error b => if h : a = b then isTrue (by rw [h]) else isFalse (by simp [h])
  | .ok _, .error _ => isFalse (by simp)
  | .error _, .ok _ => isFalse (by simp)

end StrFormat

namespace StrFormat

/-- Inversion of a successful `Except` bind: the first action succeeded. -/
theorem except_bind_ok {ε α β : Type} {x : Except ε α} {f : α → Except ε β} {b : β}
    (h : (x >>= f) = .ok b) : ∃ a, x = .ok a ∧ f a = .ok b := by
  cases x with
  | ok a => exact ⟨a, rfl, h⟩
  | error e => exact absurd h (by simp [Bind.bind, Except.bind])

/-- Reduction of a bind whose first action already succeeded. -/
theorem except_ok_bind {ε α β : Type} (a : α) (f : α → Except ε β) :
    (Except.ok a : Except ε α) >>= f = f a := rfl

/-- Propagation of a failed first action through a bind. -/
theorem except_error_bind {ε α β : Type} (e : ε) (f : α → Except ε β) :
    (Except.error e : Except ε α) >>= f = Except.error e := rfl

/-- Fields of a fragment untouched by the selector reader. -/
theorem ReadSelector_frame {s : List Char} {pos : Nat} {fragment : FormatFragment}
    {r : FormatFragment × List Char × Nat} (h : ReadSelector s pos fragment = .ok r) :
    r.1.index = fragment.index ∧ r.1.text = fragment.text ∧ r.1.handled = fragment.handled ∧
    r.1.formatSpecifier = fragment.formatSpecifier ∧
    r.1.explicitConversion = fragment.explicitConversion := by
  unfold ReadSelector at h
  repeat' split at h
  all_goals simp_all
  all_goals (cases h; simp)

/-- Fields of a fragment untouched by the selector loop. -/
theorem ReadSelectorsAux_frame {fuel : Nat} {s : List Char} {pos : Nat} {fragment : FormatFragment}
    {r : FormatFragment × List Char × Nat} (h : ReadSelectorsAux () fuel s pos fragment = .ok r) :
    r.1.index = fragment.index ∧ r.1.text = fragment.text ∧ r.1.handled = fragment.handled ∧
    r.1.formatSpecifier = fragment.formatSpecifier ∧
    r.1.explicitConversion = fragment.explicitConversion := by
  induction fuel generalizing s pos fragment with
  | zero =>
    unfold ReadSelectorsAux at h
    cases h
    simp
  | succ fuel ih =>
    unfold ReadSelectorsAux at h
    split at h
    · split at h
      · obtain ⟨⟨f2, s2, p2⟩, hsel, h⟩ := except_bind_ok h
        have h1 := ReadSelector_frame hsel
        have h2 := ih h
        simp only [h2.1, h2.2.1, h2.2.2.1, h2.2.2.2.1, h2.2.2.2.2]
        exact h1
      · cases h; simp
    · cases h; simp

/-- Fields of a fragment untouched by `ReadSelectors`. -/
theorem ReadSelectors_frame {s : List Char} {pos : Nat} {fragment : FormatFragment}
    {r : FormatFragment × List Char × Nat} (h : ReadSelectors s pos fragment = .ok r) :
    r.1.index = fragment.index ∧ r.1.text = fragment.text ∧ r.1.handled = fragment.handled ∧
    r.1.formatSpecifier = fragment.formatSpecifier ∧
    r.1.explicitConversion = fragment.explicitConversion :=
  ReadSelectorsAux_frame h

/-- Fields of a fragment untouched by the explicit-conversion reader. -/
theorem ReadExplicitTypeConversion_frame {s : List Char} {pos : Nat} {fragment : FormatFragment}
    {r : FormatFragment × List Char × Nat} (h : ReadExplicitTypeConversion s pos fragment = .ok r) :
    r.1.index = fragment.index ∧ r.1.text = fragment.text ∧ r.1.handled = fragment.handled ∧
    r.1.formatSpecifier = fragment.formatSpecifier := by
  unfold ReadExplicitTypeConversion at h
  repeat' split at h
  all_goals first
    | (cases h; simp)
    | simp_all

/-- Fields of a fragment untouched by the specifier extraction. -/
theorem ParseFormatSpecifier_frame {s : List Char} {pos : Nat} {fragment : FormatFragment}
    {r : FormatFragment × List Char × Nat} (h : ParseFormatSpecifier s pos fragment = .ok r) :
    r.1.index = fragment.index ∧ r.1.text = fragment.text ∧ r.1.handled = fragment.handled ∧
    r.1.explicitConversion = fragment.explicitConversion := by
  unfold ParseFormatSpecifier at h
  split at h
  · obtain ⟨⟨spec, rem, p⟩, hread, h⟩ := except_bind_ok h
    cases h
    simp
  · cases h
    simp

/-- Environment translation preserves the index and handled flag, and is the
identity on fragments that are not environment references. -/
theorem TranslateEnvironmentFragment_frame {env : String → Option String}
    {fragment r : FormatFragment} (h : TranslateEnvironmentFragment env fragment = .ok r) :
    r.index = fragment.index ∧ r.handled = fragment.handled ∧
    (fragment.index ≠ -2 → r = fragment) := by
  unfold TranslateEnvironmentFragment at h
  split at h
  · obtain ⟨⟨f2, out⟩, hc, h⟩ := except_bind_ok h
    cases h
    refine ⟨rfl, rfl, fun hne => absurd (by assumption) hne⟩
  · cases h
    exact ⟨rfl, rfl, fun _ => rfl⟩

/-- Specification of the tail of field parsing: the supplied next-index is
returned unchanged, and every produced fragment is either the field
fragment (index as supplied, handled iff the index is negative, text
preserved unless the field is an environment reference) or a trailing
handled text fragment. -/
theorem ParseFormatParameterRest_spec {env : String → Option String} {fragment : FormatFragment}
    {pIdx nxt : Int} {s : List Char} {pos : Nat}
    {r : List FormatFragment × List Char × Nat × Int}
    (h : ParseFormatParameterRest env fragment pIdx nxt s pos = .ok r) :
    r.2.2.2 = nxt ∧ ∀ f ∈ r.1,
      (f.index = pIdx ∧ f.handled = decide (pIdx < 0) ∧ (pIdx ≠ -2 → f.text = fragment.text)) ∨
      (f.index = -1 ∧ f.handled = true) := by
  unfold ParseFormatParameterRest at h
  obtain ⟨⟨f1, s1, p1⟩, h1, h⟩ := except_bind_ok h
  obtain ⟨⟨f2, s2, p2⟩, h2, h⟩ := except_bind_ok h
  obtain ⟨⟨f3, s3, p3⟩, h3, h⟩ := except_bind_ok h
  obtain ⟨f4, h4, h⟩ := except_bind_ok h
  have hf1 := ReadSelectors_frame h1
  have hf2 := ReadExplicitTypeConversion_frame h2
  have hf3 := ParseFormatSpecifier_frame h3
  have hf4 := TranslateEnvironmentFragment_frame h4
  have hidx : f4.index = pIdx := by
    rw [hf4.1, hf3.1, hf2.1, hf1.1]
    simp [InitializeFormatFragment]
  have hhandled : f4.handled = decide (pIdx < 0) := by
    rw [hf4.2.1, hf3.2.2.1, hf2.2.2.1, hf1.2.2.1]
    simp [InitializeFormatFragment]
  have htext : pIdx ≠ -2 → f4.text = fragment.text := by
    intro hne
    have hne3 : f3.index ≠ -2 := by
      rw [hf3.1, hf2.1, hf1.1]
      simpa [InitializeFormatFragment] using hne
    rw [hf4.2.2 hne3, hf3.2.1, hf2.2.1, hf1.2.1]
    simp [InitializeFormatFragment]
  split at h
  split at h
  · split at h
    · injection h with h
      subst h
      refine ⟨rfl, ?_⟩
      intro f hf
      simp at hf
      subst hf
      exact .inl ⟨hidx, hhandled, htext⟩
    · obtain ⟨⟨txt, rem, pp⟩, hplain, h⟩ := except_bind_ok h
      dsimp only at h
      split at h
      · injection h with h
        subst h
        refine ⟨rfl, ?_⟩
        intro f hf
        simp at hf
        subst hf
        exact .inl ⟨hidx, hhandled, htext⟩
      · injection h with h
        subst h
        refine ⟨rfl, ?_⟩
        intro f hf
        simp at hf
        rcases hf with hf | hf
        · subst hf
          exact .inl ⟨hidx, hhandled, htext⟩
        · subst hf
          exact .inr ⟨by simp [InitializeFormatFragment], by simp [InitializeFormatFragment]⟩
  · simp at h

/-- Per-field parse specification: a parsed field with a non-negative
(explicit or auto-assigned) index sets the returned next-index to that index
plus one, and starts with empty text, unhandled. -/
theorem ParseFormatParameter_spec {env : String → Option String} {s : List Char} {pos : Nat}
    {nxt : Int} {r : List FormatFragment × List Char × Nat × Int}
    (h : ParseFormatParameter env s pos nxt = .ok r) :
    ∀ f ∈ r.1, 0 ≤ f.index → r.2.2.2 = f.index + 1 ∧ f.text = "" ∧ f.handled = false := by
  unfold ParseFormatParameter at h
  split at h
  · split at h
    split at h
    · have hs := ParseFormatParameterRest_spec h
      intro f hf hge
      rcases hs.2 f hf with ⟨hidx, _, _⟩ | ⟨hidx, _⟩ <;> omega
    · obtain ⟨⟨pIdx, s2, pos2⟩, hint, h⟩ := except_bind_ok h
      have hs := ParseFormatParameterRest_spec h
      intro f hf hge
      rcases hs.2 f hf with ⟨hidx, hh, ht⟩ | ⟨hidx, hh⟩
      · have hp : 0 ≤ pIdx := hidx ▸ hge
        refine ⟨by rw [hs.1, hidx], ?_, ?_⟩
        · exact ht (by omega)
        · rw [hh]
          simp
          omega
      · omega
  · cases h

/-- C2 (amended): parsing any field with a non-negative bound index —
explicitly written or assigned from the running auto-index — sets the
running auto-increment index to that index plus one; only environment
fields (negative sentinel index) leave it unchanged.  In particular the
presence of an explicit index does advance the running auto-index. -/
theorem c2_next_index_follows_parsed_field
    (env : String → Option String) (s : List Char) (pos : Nat) (nxt : Int)
    (r : List FormatFragment × List Char × Nat × Int)
    (h : ParseFormatParameter env s pos nxt = .ok r)
    (f : FormatFragment) (hf : f ∈ r.1) (hge : 0 ≤ f.index) :
    r.2.2.2 = f.index + 1 :=
  (ParseFormatParameter_spec h f hf hge).1

/-- Witness for C2: parsing `{2}xyz` with running index 7 yields the field
fragment with index 2 and the running index 3 = 2 + 1. -/
theorem c2_next_index_follows_parsed_field_witness :
    ParseFormatParameter emptyEnv ("\x7b2\x7dxyz".data) 0 7
      = .ok ([InitializeFormatFragment {} 2,
              { InitializeFormatFragment {} (-1) with text := "xyz" }], [], 6, 3) ∧
    (3 : Int) = (InitializeFormatFragment {} 2).index + 1 :=
  ⟨by decide,
   c2_next_index_follows_parsed_field emptyEnv ("\x7b2\x7dxyz".data) 0 7
     ([InitializeFormatFragment {} 2,
       { InitializeFormatFragment {} (-1) with text := "xyz" }], [], 6, 3)
     (by decide) (InitializeFormatFragment {} 2) (by decide) (by decide)⟩

/-- Parser loop invariant: every fragment with a non-negative index leaves
the parser with empty text, unhandled. -/
theorem ParseFormatStrLoop_inv {env : String → Option String} {fuel : Nat} {s : List Char}
    {pos : Nat} {next : Int} {frags : List FormatFragment}
    (h : ParseFormatStrLoop env fuel s pos next = .ok frags) :
    ∀ f ∈ frags, 0 ≤ f.index → f.text = "" ∧ f.handled = false := by
  induction fuel generalizing s pos next frags with
  | zero =>
    cases s with
    | nil =>
      simp only [ParseFormatStrLoop] at h
      cases h
      simp
    | cons c rest =>
      simp only [ParseFormatStrLoop] at h
      simp at h
  | succ fuel ih =>
    cases s with
    | nil =>
      simp only [ParseFormatStrLoop] at h
      cases h
      simp
    | cons c rest =>
      simp only [ParseFormatStrLoop] at h
      obtain ⟨⟨fs, rest2, pos2, next2⟩, hp, h⟩ := except_bind_ok h
      obtain ⟨more, hm, h⟩ := except_bind_ok h
      injection h with h
      subst h
      intro f hf hge
      rcases List.mem_append.mp hf with hf | hf
      · exact ((ParseFormatParameter_spec hp) f hf hge).2
      · exact ih hm f hf hge

/-- Parse invariant at the `ParseFormatStr` level. -/
theorem ParseFormatStr_inv {env : String → Option String} {s : List Char} {lead : String}
    {frags : List FormatFragment} (h : ParseFormatStr env s = .ok (lead, frags)) :
    ∀ f ∈ frags, 0 ≤ f.index → f.text = "" ∧ f.handled = false := by
  unfold ParseFormatStr at h
  obtain ⟨⟨l, rest, pos⟩, hlead, h⟩ := except_bind_ok h
  obtain ⟨fr, hloop, h⟩ := except_bind_ok h
  injection h with h
  injection h with h1 h2
  subst h2
  exact ParseFormatStrLoop_inv hloop

/-- The floating-point conversion overload returns the fragment unchanged. -/
theorem ConvertAndFormatTypeFloat_frag {q : ℚ} {fragment : FormatFragment}
    {r : FormatFragment × String} (h : ConvertAndFormatTypeFloat q fragment = .ok r) :
    r.1 = fragment := by
  unfold ConvertAndFormatTypeFloat at h
  split at h
  all_goals (obtain ⟨out, ho, h⟩ := except_bind_ok h; cases h; rfl)

/-- The final integral rendering returns the fragment unchanged. -/
theorem ConvertAndFormatTypeIntFinish_frag {v : Int} {fragment : FormatFragment}
    {r : FormatFragment × String} (h : ConvertAndFormatTypeIntFinish v fragment = .ok r) :
    r.1 = fragment := by
  unfold ConvertAndFormatTypeIntFinish at h
  split at h
  all_goals (obtain ⟨out, ho, h⟩ := except_bind_ok h; cases h; rfl)

/-- The integral selector loop preserves the fragment's index, text,
handled flag and specifier (it only pops selectors). -/
theorem ConvertAndFormatTypeIntAux_frame {sels : List String} {v : Int}
    {fragment : FormatFragment} {r : FormatFragment × String}
    (h : ConvertAndFormatTypeIntAux sels v fragment = .ok r) :
    r.1.index = fragment.index ∧ r.1.text = fragment.text := by
  induction sels generalizing v fragment with
  | nil =>
    unfold ConvertAndFormatTypeIntAux at h
    rw [ConvertAndFormatTypeIntFinish_frag h]
    exact ⟨rfl, rfl⟩
  | cons sel rest ih =>
    unfold ConvertAndFormatTypeIntAux at h
    repeat' split at h
    all_goals first
      | simp at h
      | (have hx := ih h; simpa using hx)
      | (rw [ConvertAndFormatTypeFloat_frag h]; exact ⟨rfl, rfl⟩)
      | (rw [ConvertAndFormatTypeIntFinish_frag h]; exact ⟨rfl, rfl⟩)

/-- The boolean conversion overload returns the fragment unchanged. -/
theorem ConvertAndFormatTypeBool_frag {b : Bool} {fragment : FormatFragment}
    {r : FormatFragment × String} (h : ConvertAndFormatTypeBool b fragment = .ok r) :
    r.1 = fragment := by
  unfold ConvertAndFormatTypeBool at h
  dsimp only at h
  repeat' split at h
  all_goals (obtain ⟨out, ho, h⟩ := except_bind_ok h; cases h; rfl)

/-- The string conversion overload returns the fragment unchanged. -/
theorem ConvertAndFormatTypeStr_frag {s : String} {fragment : FormatFragment}
    {r : FormatFragment × String} (h : ConvertAndFormatTypeStr s fragment = .ok r) :
    r.1 = fragment := by
  unfold ConvertAndFormatTypeStr at h
  split at h
  all_goals (obtain ⟨out, ho, h⟩ := except_bind_ok h; cases h; rfl)

/-- Rendering a value never changes the fragment's index or text (selectors
may be consumed, nothing else is written). -/
theorem ConvertAndFormatTypeValue_frame {v : Value} {fragment : FormatFragment}
    {r : FormatFragment × String} (h : ConvertAndFormatTypeValue v fragment = .ok r) :
    r.1.index = fragment.index ∧ r.1.text = fragment.text := by
  refine ConvertAndFormatTypeValue.induct
    (fun v fragment => ∀ r, ConvertAndFormatTypeValue v fragment = .ok r →
      r.1.index = fragment.index ∧ r.1.text = fragment.text)
    (fun whole entries sel fragment => ∀ r, ConvertAndFormatTypeMapFind whole entries sel fragment = .ok r →
      r.1.index = fragment.index ∧ r.1.text = fragment.text)
    ?_ ?_ ?_ ?_ ?_ ?_ ?_ ?_ ?_ v fragment r h
  · intro n fragment r h
    unfold ConvertAndFormatTypeValue at h
    exact ConvertAndFormatTypeIntAux_frame h
  · intro q fragment r h
    unfold ConvertAndFormatTypeValue at h
    rw [ConvertAndFormatTypeFloat_frag h]
    exact ⟨rfl, rfl⟩
  · intro b fragment r h
    unfold ConvertAndFormatTypeValue at h
    rw [ConvertAndFormatTypeBool_frag h]
    exact ⟨rfl, rfl⟩
  · intro s fragment r h
    unfold ConvertAndFormatTypeValue at h
    rw [ConvertAndFormatTypeStr_frag h]
    exact ⟨rfl, rfl⟩
  · intro entries fragment selector rest heq ih r h
    unfold ConvertAndFormatTypeValue at h
    rw [heq] at h
    have := ih r h
    simpa using this
  · intro entries fragment heq r h
    unfold ConvertAndFormatTypeValue at h
    rw [heq] at h
    obtain ⟨out, ho, h⟩ := except_bind_ok h
    cases h
    exact ⟨rfl, rfl⟩
  · intro whole x fragment r h
    unfold ConvertAndFormatTypeMapFind at h
    obtain ⟨out, ho, h⟩ := except_bind_ok h
    cases h
    exact ⟨rfl, rfl⟩
  · intro whole v rest selector fragment ih r h
    unfold ConvertAndFormatTypeMapFind at h
    simp only [if_pos rfl] at h
    exact ih r h
  · intro whole k v rest selector fragment hne ih r h
    unfold ConvertAndFormatTypeMapFind at h
    rw [if_neg hne] at h
    exact ih r h

/-- A fragment whose index differs from the argument position passes the
binding step untouched. -/
theorem FormatParameter_unmatched {i : Nat} {arg : Value} {fs fs2 : List FormatFragment}
    (h : FormatParameter i arg fs = .ok fs2) :
    ∀ f2 ∈ fs2, f2.index ≠ (i : Int) → f2 ∈ fs := by
  induction fs generalizing fs2 with
  | nil =>
    unfold FormatParameter at h
    cases h
    simp
  | cons head rest ih =>
    unfold FormatParameter at h
    split at h
    · obtain ⟨⟨fc, text⟩, hc, h⟩ := except_bind_ok h
      obtain ⟨rest2, hrest, h⟩ := except_bind_ok h
      injection h with h
      subst h
      intro g hg hne
      rcases List.mem_cons.mp hg with hg | hg
      · subst hg
        exact absurd ((ConvertAndFormatTypeValue_frame hc).1.trans (by assumption)) hne
      · exact List.mem_cons_of_mem _ (ih hrest g hg hne)
    · obtain ⟨rest2, hrest, h⟩ := except_bind_ok h
      injection h with h
      subst h
      intro g hg hne
      rcases List.mem_cons.mp hg with hg | hg
      · subst hg
        exact List.mem_cons_self _ _
      · exact List.mem_cons_of_mem _ (ih hrest g hg hne)

/-- A fragment whose index lies beyond every bound argument position passes
the whole binding pass untouched. -/
theorem FormatParametersFrom_unmatched {i : Nat} {args : List Value} {fs fs2 : List FormatFragment}
    (h : FormatParametersFrom i args fs = .ok fs2) :
    ∀ f2 ∈ fs2, ((i : Int) + args.length ≤ f2.index) → f2 ∈ fs := by
  induction args generalizing i fs with
  | nil =>
    unfold FormatParametersFrom at h
    cases h
    exact fun f2 hf2 _ => hf2
  | cons arg args ih =>
    unfold FormatParametersFrom at h
    obtain ⟨fsMid, hone, h⟩ := except_bind_ok h
    intro f2 hf2 hge
    simp only [List.length_cons] at hge
    have hmid : f2 ∈ fsMid := ih h f2 hf2 (by push_cast at hge ⊢; omega)
    exact FormatParameter_unmatched hone f2 hmid (by push_cast at hge; omega)

/-- With the strict check disabled the assembler always succeeds,
concatenating the fragment texts. -/
theorem OutputFragments_lenient (fs : List FormatFragment) :
    OutputFragments false fs = .ok (fs.foldr (fun f acc => f.text ++ acc) "") := by
  induction fs with
  | nil => rfl
  | cons head rest ih =>
    unfold OutputFragments
    rw [if_neg (by simp)]
    rw [ih]
    rfl

/-- With the strict check enabled, an unhandled fragment makes the
assembler raise the out-of-range error (carrying some unhandled fragment's
index). -/
theorem OutputFragments_strict_error {fs : List FormatFragment}
    (hex : ∃ f ∈ fs, f.handled = false) :
    ∃ j, OutputFragments true fs = .error (.outOfRange j) := by
  induction fs with
  | nil => simp at hex
  | cons head rest ih =>
    unfold OutputFragments
    by_cases hh : head.handled
    · rw [if_neg (by simp [hh])]
      obtain ⟨f, hf, hfh⟩ := hex
      rcases List.mem_cons.mp hf with hf | hf
      · subst hf
        rw [hfh] at hh
        simp at hh
      · obtain ⟨j, hj⟩ := ih ⟨f, hf, hfh⟩
        refine ⟨j, ?_⟩
        rw [hj]
        rfl
    · refine ⟨head.index, ?_⟩
      rw [if_pos (by simp [hh])]

/-- C8 (amended): provided parsing and argument binding succeed, a render
call in which some field fragment's index matches no supplied argument
raises the unbound-field error (`std::out_of_range`) in the strict
configuration, while with the strict toggle disabled the same call succeeds
and every such unbound field contributes empty text. -/
theorem c8_unbound_field_strict_and_lenient
    (env : String → Option String) (t : String) (args : List Value) (lead : String)
    (frags bound : List FormatFragment)
    (hparse : ParseFormatStr env t.data = .ok (lead, frags))
    (hbind : FormatParameters args frags = .ok bound)
    (hunbound : ∃ f ∈ bound, (args.length : Int) ≤ f.index) :
    (∃ j, Format true env t args = .error (.outOfRange j)) ∧
    Format false env t args = .ok (lead ++ bound.foldr (fun f acc => f.text ++ acc) "") ∧
    (∀ f ∈ bound, (args.length : Int) ≤ f.index → f.text = "") := by
  have hback : ∀ f ∈ bound, (args.length : Int) ≤ f.index → f ∈ frags := by
    intro f hf hge
    exact FormatParametersFrom_unmatched hbind f hf (by push_cast; omega)
  have htext : ∀ f ∈ bound, (args.length : Int) ≤ f.index → f.text = "" ∧ f.handled = false := by
    intro f hf hge
    exact ParseFormatStr_inv hparse f (hback f hf hge) (by omega)
  refine ⟨?_, ?_, fun f hf hge => (htext f hf hge).1⟩
  · obtain ⟨f, hf, hge⟩ := hunbound
    obtain ⟨j, hj⟩ := OutputFragments_strict_error ⟨f, hf, (htext f hf hge).2⟩
    refine ⟨j, ?_⟩
    unfold Format
    rw [hparse, except_ok_bind]
    dsimp only
    rw [hbind, except_ok_bind]
    rw [hj, except_error_bind]
  · unfold Format
    rw [hparse, except_ok_bind]
    dsimp only
    rw [hbind, except_ok_bind]
    rw [OutputFragments_lenient, except_ok_bind]

/-- Witness for C8: the template `{1}` with the single argument 5 has an
unbound field of index 1; strict rendering raises the out-of-range error
and lenient rendering yields the empty string. -/
theorem c8_unbound_field_strict_and_lenient_witness :
    ParseFormatStr emptyEnv ("\x7b1\x7d".data) = .ok ("", [InitializeFormatFragment {} 1]) ∧
    FormatParameters [.vInt 5] [InitializeFormatFragment {} 1] = .ok [InitializeFormatFragment {} 1] ∧
    ((∃ j, Format true emptyEnv "\x7b1\x7d" [.vInt 5] = .error (.outOfRange j)) ∧
     Format false emptyEnv "\x7b1\x7d" [.vInt 5]
       = .ok ("" ++ [InitializeFormatFragment {} 1].foldr (fun f acc => f.text ++ acc) "") ∧
     (∀ f ∈ [InitializeFormatFragment {} 1], ((1 : Nat) : Int) ≤ f.index → f.text = "")) :=
  ⟨by decide, by decide,
   c8_unbound_field_strict_and_lenient emptyEnv "\x7b1\x7d" [.vInt 5] ""
     [InitializeFormatFragment {} 1] [InitializeFormatFragment {} 1]
     (by decide) (by decide)
     ⟨InitializeFormatFragment {} 1, by decide, by decide⟩⟩

/-- An all-identifier prefix is read off in full by the identifier reader,
stopping at the first non-identifier character. -/
theorem ReadIdentifier_append {k : List Char} (hk : ∀ c ∈ k, isIdentChar c = true)
    {c : Char} (hc : isIdentChar c = false) (rest : List Char) :
    ∀ pos, ReadIdentifier (k ++ c :: rest) pos = (k, c :: rest, pos + k.length) := by
  induction k with
  | nil =>
    intro pos
    rw [List.nil_append]
    unfold ReadIdentifier
    simp [hc]
  | cons a as ih =>
    intro pos
    have ha : isIdentChar a = true := hk a (List.mem_cons_self a as)
    rw [List.cons_append]
    unfold ReadIdentifier
    rw [if_pos ha]
    rw [ih (fun c hc => hk c (List.mem_cons_of_mem a hc)) (pos + 1)]
    have hlen : pos + 1 + as.length = pos + (a :: as).length := by
      simp [List.length_cons]
      omega
    rw [hlen]

/-- The parser loop on an exhausted input returns no fragments, whatever the
fuel. -/
theorem ParseFormatStrLoop_nil (env : String → Option String) (fuel pos : Nat) (next : Int) :
    ParseFormatStrLoop env fuel [] pos next = .ok [] := by
  cases fuel <;> rfl

/-- One step of the parser loop on a non-empty input. -/
theorem ParseFormatStrLoop_cons (env : String → Option String) (m : Nat) (c : Char)
    (rest : List Char) (pos : Nat) (next : Int) :
    ParseFormatStrLoop env (m + 1) (c :: rest) pos next
      = (do
          let r ← ParseFormatParameter env (c :: rest) pos next
          let more ← ParseFormatStrLoop env m r.2.1 r.2.2.1 r.2.2.2
          Except.ok (r.1 ++ more)) := rfl

/-- Binding any argument list over an empty fragment list succeeds with no
fragments. -/
theorem FormatParametersFrom_nilfrag (args : List Value) :
    ∀ i, FormatParametersFrom i args [] = .ok [] := by
  induction args with
  | nil => intro i; rfl
  | cons a as ih =>
    intro i
    unfold FormatParametersFrom
    rw [show FormatParameter i a [] = Except.ok [] from rfl, except_ok_bind]
    exact ih (i + 1)

/-- Binding any argument list leaves a single negative-index fragment (text
or environment) untouched. -/
theorem FormatParametersFrom_negfrag {f : FormatFragment} (hf : f.index < 0) (args : List Value) :
    ∀ i, FormatParametersFrom i args [f] = .ok [f] := by
  induction args with
  | nil => intro i; rfl
  | cons a as ih =>
    intro i
    unfold FormatParametersFrom
    unfold FormatParameter
    rw [if_neg (by omega : ¬(f.index = ((i : Nat) : Int)))]
    rw [show FormatParameter i a [] = Except.ok [] from rfl, except_ok_bind]
    rw [except_ok_bind]
    exact ih (i + 1)

/-- The spec-side un-doubling copies a non-brace character verbatim. -/
theorem EscapeUndouble_cons {a : Char} {b : List Char} (h1 : a ≠ '\x7b') (h2 : a ≠ '\x7d') :
    EscapeUndouble (a :: b) = a :: EscapeUndouble b := by
  rw [EscapeUndouble.eq_def]
  split <;> simp_all

/-- An opening brace followed by anything but another opening brace is not
escaped literal text. -/
theorem EscapedLiteralOnly_open_cons {c : Char} {rest : List Char} (hc : c ≠ '\x7b') :
    EscapedLiteralOnly ('\x7b' :: c :: rest) = false := by
  rw [EscapedLiteralOnly.eq_def]
  split
  case h_6 =>
    rename_i hA hB hC hD heq
    injection heq with e1 e2
    exact absurd e1.symm hB
  all_goals simp_all

/-- A closing brace followed by anything but another closing brace is not
escaped literal text. -/
theorem EscapedLiteralOnly_close_cons {c : Char} {rest : List Char} (hc : c ≠ '\x7d') :
    EscapedLiteralOnly ('\x7d' :: c :: rest) = false := by
  rw [EscapedLiteralOnly.eq_def]
  split
  case h_6 =>
    rename_i hA hB hC hD heq
    injection heq with e1 e2
    exact absurd e1.symm hD
  all_goals simp_all

/-- The escaped-literal predicate skips over a non-brace character. -/
theorem EscapedLiteralOnly_other_cons {a : Char} {b : List Char} (h1 : a ≠ '\x7b') (h2 : a ≠ '\x7d') :
    EscapedLiteralOnly (a :: b) = EscapedLiteralOnly b := by
  rw [EscapedLiteralOnly.eq_def]
  split <;> simp_all

/-- On escaped-only literal text the plain-text reader consumes the whole
input and returns exactly the un-doubled text. -/
theorem GetPlainTextFragment_escaped :
    ∀ (t : List Char), EscapedLiteralOnly t = true →
      ∀ pos, ∃ p, GetPlainTextFragment t pos '\x00' = .ok (EscapeUndouble t, [], p) := by
  intro t
  induction t using EscapedLiteralOnly.induct with
  | case1 => intro _ pos; exact ⟨pos, rfl⟩
  | case2 rest ih =>
    intro h pos
    simp only [EscapedLiteralOnly] at h
    obtain ⟨p, hp⟩ := ih h (pos + 2)
    refine ⟨p, ?_⟩
    rw [GetPlainTextFragment.eq_def]
    simp only [EscapeUndouble]
    simp
    rw [hp, except_ok_bind]
  | case3 a hno =>
    intro h pos
    exfalso
    cases a with
    | nil => exact absurd h (by decide)
    | cons c rest =>
      rw [EscapedLiteralOnly_open_cons (fun hc => hno rest (by rw [hc]))] at h
      exact Bool.noConfusion h
  | case4 rest ih =>
    intro h pos
    simp only [EscapedLiteralOnly] at h
    obtain ⟨p, hp⟩ := ih h (pos + 1 + 1)
    refine ⟨p, ?_⟩
    rw [GetPlainTextFragment.eq_def]
    simp only [EscapeUndouble]
    simp
    rw [GetPlainTextFragment.eq_def]
    simp
    rw [hp, except_ok_bind]
  | case5 a hno =>
    intro h pos
    exfalso
    cases a with
    | nil => exact absurd h (by decide)
    | cons c rest =>
      rw [EscapedLiteralOnly_close_cons (fun hc => hno rest (by rw [hc]))] at h
      exact Bool.noConfusion h
  | case6 a b hno1 hne1 hno2 hne2 ih =>
    intro h pos
    rw [EscapedLiteralOnly_other_cons hne1 hne2] at h
    obtain ⟨p, hp⟩ := ih h (pos + 1)
    refine ⟨p, ?_⟩
    rw [EscapeUndouble_cons hne1 hne2]
    rw [GetPlainTextFragment.eq_def]
    dsimp only
    rw [if_neg (by simp), if_neg hne1, if_neg hne2]
    rw [hp, except_ok_bind]

/-- A field opened by `\x7b$` hands the identifier after the dollar sign to
the common field-parsing tail as an environment fragment. -/
theorem ParseFormatParameter_envHead (env : String → Option String) (k : List Char) (next : Int) :
    ParseFormatParameter env ('\x7b' :: '$' :: (k ++ ['\x7d'])) 0 next
      = (let r := ReadIdentifier (k ++ ['\x7d']) 2
         ParseFormatParameterRest env { text := String.mk r.1 } (-2) next r.2.1 r.2.2) := rfl

/-- Translating an environment fragment whose variable is missing renders
the empty string: the fragment keeps its sentinel index, stays handled, and
its text becomes empty. -/
theorem TranslateEnvironmentFragment_missing (env : String → Option String) (k : List Char)
    (henv : env (String.mk k) = none) :
    TranslateEnvironmentFragment env (InitializeFormatFragment { text := String.mk k } (-2))
      = .ok { text := "", index := -2, handled := true } := by
  unfold TranslateEnvironmentFragment InitializeFormatFragment
  dsimp only
  rw [if_pos rfl]
  rw [henv]
  rfl

/-- The field-parsing tail of an environment field with no selectors,
conversion or specifier: the fragment is translated eagerly and the closing
brace ends the field. -/
theorem ParseFormatParameterRest_envField (env : String → Option String) (k : List Char)
    (next : Int) (p : Nat) (henv : env (String.mk k) = none) :
    ParseFormatParameterRest env { text := String.mk k } (-2) next ['\x7d'] p
      = .ok ([{ text := "", index := -2, handled := true }], [], p + 1, next) := by
  rw [show ParseFormatParameterRest env { text := String.mk k } (-2) next ['\x7d'] p
        = (do
            let f4 ← TranslateEnvironmentFragment env (InitializeFormatFragment { text := String.mk k } (-2))
            Except.ok ([f4], [], p + 1, next)) from rfl]
  rw [TranslateEnvironmentFragment_missing env k henv, except_ok_bind]

/-- A dot selector over an all-identifier key consumes the key and stops at
the character after it. -/
theorem ReadSelector_dot {k : List Char} (hk : ∀ c ∈ k, isIdentChar c = true)
    (r : List Char) (pos : Nat) (fragment : FormatFragment) :
    ReadSelector ('.' :: (k ++ '\x7d' :: r)) pos fragment
      = .ok ({ fragment with selectors := fragment.selectors ++ [String.mk k] },
             '\x7d' :: r, pos + 1 + k.length) := by
  unfold ReadSelector
  dsimp only
  rw [if_pos (Or.inl rfl)]
  rw [ReadIdentifier_append hk (by decide) r (pos + 1)]
  dsimp only
  rw [if_neg (by decide), if_neg (by decide)]

/-- A bracket selector over an all-identifier key consumes the key and its
closing bracket. -/
theorem ReadSelector_bracket {k : List Char} (hk : ∀ c ∈ k, isIdentChar c = true)
    (r : List Char) (pos : Nat) (fragment : FormatFragment) :
    ReadSelector ('[' :: (k ++ ']' :: r)) pos fragment
      = .ok ({ fragment with selectors := fragment.selectors ++ [String.mk k] },
             r, pos + 1 + k.length + 1) := by
  unfold ReadSelector
  dsimp only
  rw [if_pos (Or.inr rfl)]
  rw [ReadIdentifier_append hk (by decide) r (pos + 1)]
  dsimp only
  rw [if_neg (by decide), if_pos rfl]

/-- The selector loop stops at a closing brace. -/
theorem ReadSelectorsAux_stop (m : Nat) (pos : Nat) (fragment : FormatFragment) :
    ReadSelectorsAux () (m + 1) ['\x7d'] pos fragment = .ok (fragment, ['\x7d'], pos) := rfl

/-- One step of the selector loop. -/
theorem ReadSelectorsAux_cons (m : Nat) (c : Char) (rest : List Char) (pos : Nat)
    (fragment : FormatFragment) :
    ReadSelectorsAux () (m + 1) (c :: rest) pos fragment
      = if c = '.' ∨ c = '[' then
          (do
            let r ← ReadSelector (c :: rest) pos fragment
            ReadSelectorsAux () m r.2.1 r.2.2 r.1)
        else .ok (fragment, c :: rest, pos) := rfl

/-- The selector phase of a field `\x7b0.key\x7d`: one dot selector, then
the closing brace stops the loop. -/
theorem ReadSelectors_dot {k : List Char} (hk : ∀ c ∈ k, isIdentChar c = true)
    (pos : Nat) (fragment : FormatFragment) :
    ReadSelectors ('.' :: (k ++ ['\x7d'])) pos fragment
      = .ok ({ fragment with selectors := fragment.selectors ++ [String.mk k] },
             ['\x7d'], pos + 1 + k.length) := by
  unfold ReadSelectors
  simp only [List.length_cons, List.length_append, List.length_singleton]
  rw [ReadSelectorsAux_cons]
  rw [if_pos (Or.inl rfl)]
  rw [ReadSelector_dot hk [] pos fragment]
  simp only [except_ok_bind]
  rw [ReadSelectorsAux_stop]

/-- The selector phase of a field `\x7b0[key]\x7d`: one bracket selector,
then the closing brace stops the loop. -/
theorem ReadSelectors_bracket {k : List Char} (hk : ∀ c ∈ k, isIdentChar c = true)
    (pos : Nat) (fragment : FormatFragment) :
    ReadSelectors ('[' :: (k ++ [']', '\x7d'])) pos fragment
      = .ok ({ fragment with selectors := fragment.selectors ++ [String.mk k] },
             ['\x7d'], pos + 1 + k.length + 1) := by
  unfold ReadSelectors
  simp only [List.length_cons, List.length_append, List.length_singleton]
  rw [ReadSelectorsAux_cons]
  rw [if_pos (Or.inr rfl)]
  rw [ReadSelector_bracket hk ['\x7d'] pos fragment]
  simp only [except_ok_bind]
  rw [ReadSelectorsAux_stop]

/-- The field-parsing tail of an index-0 field whose selector phase ends at
the closing brace: no conversion, no specifier, no translation, close. -/
theorem ParseFormatParameterRest_selector (env : String → Option String) {s : List Char}
    {pos p2 : Nat} {sl : List String}
    (hsel : ReadSelectors s pos (InitializeFormatFragment {} 0)
        = .ok ({ InitializeFormatFragment {} 0 with selectors := sl }, ['\x7d'], p2)) :
    ParseFormatParameterRest env {} 0 1 s pos
      = .ok ([{ InitializeFormatFragment {} 0 with selectors := sl }], [], p2 + 1, 1) := by
  unfold ParseFormatParameterRest
  dsimp only
  rw [hsel]
  rfl

/-- Parsing the field `\x7b0.key\x7d`. -/
theorem ParseFormatParameter_dotsel (env : String → Option String) {k : List Char}
    (hk : ∀ c ∈ k, isIdentChar c = true) :
    ParseFormatParameter env ('\x7b' :: '0' :: '.' :: (k ++ ['\x7d'])) 0 0
      = .ok ([{ InitializeFormatFragment {} 0 with
                selectors := (InitializeFormatFragment {} 0).selectors ++ [String.mk k] }],
             [], 2 + 1 + k.length + 1, 1) := by
  rw [show ParseFormatParameter env ('\x7b' :: '0' :: '.' :: (k ++ ['\x7d'])) 0 0
        = ParseFormatParameterRest env {} 0 1 ('.' :: (k ++ ['\x7d'])) 2 from rfl]
  exact ParseFormatParameterRest_selector env (ReadSelectors_dot hk 2 (InitializeFormatFragment {} 0))

/-- Parsing the field `\x7b0[key]\x7d`. -/
theorem ParseFormatParameter_bracketsel (env : String → Option String) {k : List Char}
    (hk : ∀ c ∈ k, isIdentChar c = true) :
    ParseFormatParameter env ('\x7b' :: '0' :: '[' :: (k ++ [']', '\x7d'])) 0 0
      = .ok ([{ InitializeFormatFragment {} 0 with
                selectors := (InitializeFormatFragment {} 0).selectors ++ [String.mk k] }],
             [], 2 + 1 + k.length + 1 + 1, 1) := by
  rw [show ParseFormatParameter env ('\x7b' :: '0' :: '[' :: (k ++ [']', '\x7d'])) 0 0
        = ParseFormatParameterRest env {} 0 1 ('[' :: (k ++ [']', '\x7d'])) 2 from rfl]
  exact ParseFormatParameterRest_selector env (ReadSelectors_bracket hk 2 (InitializeFormatFragment {} 0))

/-- C1: for the template `{} {}, {0} {}, {0} {}` with the two string
arguments `left` and `right`, `Format` returns
`left right, left right, left right` — index-less and explicit-index fields
interleave, an index-less field binding the index that follows the
previously parsed field's index. -/
theorem c1_interleaved_auto_and_explicit :
    Format true emptyEnv "\x7b\x7d \x7b\x7d, \x7b0\x7d \x7b\x7d, \x7b0\x7d \x7b\x7d"
      [.vStr "left", .vStr "right"] = .ok "left right, left right, left right" := by decide

/-- C2 counterexample: an explicitly indexed field does not leave the
running auto-index unchanged.  Parsing `{1}` with running index 0 leaves the
running index at 2 (not 0), and consequently `{1} {}` on arguments
`a b c` renders `b c` — were the claim true, the index-less field would
bind argument 0 and the result would be `b a`. -/
theorem c2_explicit_index_advances_counterexample :
    ParseFormatParameter emptyEnv ("\x7b1\x7d".data) 0 0
      = .ok ([InitializeFormatFragment {} 1], [], 3, 2) ∧ (2 : Int) ≠ 0 ∧
    Format true emptyEnv "\x7b1\x7d \x7b\x7d" [.vStr "a", .vStr "b", .vStr "c"] = .ok "b c" ∧
    ("b c" : String) ≠ "b a" := by decide

/-- C3: `Format "{{"` yields `{` and `Format "}}"` yields `}`; a lone
closing brace followed by further text raises the positioned
IllegalFormatStringException; but a lone closing brace that ends the
template is silently dropped — the render call returns normally, against
the claim (and the documented contract of `GetPlainTextFragment`). -/
theorem c3_escape_undoubling_and_trailing_close_brace :
    Format true emptyEnv "\x7b\x7b" [] = .ok "\x7b" ∧
    Format true emptyEnv "\x7d\x7d" [] = .ok "\x7d" ∧
    Format true emptyEnv "a\x7db" []
      = .error (.illegalFormat 2 "Expected a different character, is this supposed to be escaped?") ∧
    Format true emptyEnv "\x7d" [] = .ok "" := by decide

/-- C4 counterexample: the template `x}` contains no unescaped opening
brace, its escape un-doubling is `x}` itself, yet `Format` returns `x` —
the template-final lone closing brace is consumed without being copied. -/
theorem c4_trailing_close_brace_counterexample :
    Format true emptyEnv "x\x7d" [] = .ok "x" ∧
    EscapeUndouble ("x\x7d".data) = ("x\x7d".data) ∧
    ("x" : String) ≠ "x\x7d" := by decide

unseal Rat.add Rat.sub Rat.mul Rat.inv in
/-- C5: the code evaluated at the claimed inputs.  With an explicit
precision and no presentation type the value is inserted with the stream's
default (general) floating notation, where precision counts significant
digits and a precision of zero is taken as one: precisions 0..4 of
2.7182818284590452353603 yield `3`, `3`, `2.7`, `2.72`, `2.718` — not the
`2`, `2.7`, `2.72`, `2.718`, `2.7183` the documentation records. -/
theorem c5_explicit_precision_general_digits :
    Format true emptyEnv "\x7b0:.0\x7d, \x7b0:.1\x7d, \x7b0:.2\x7d, \x7b0:.3\x7d, \x7b0:.4\x7d"
      [.vFloat ((27182818284590452353603 : ℚ) / 10 ^ 22)]
      = .ok "3, 3, 2.7, 2.72, 2.718" := by decide

unseal Rat.add Rat.sub Rat.mul Rat.inv in
/-- C6: the code evaluated at the claimed input.  `std::sqrt` on the
integral value returns a `double`, so the chain `inc.inc.sqrt` on 7 renders
through the floating-point path: the adaptive-precision algorithm (minimum
precision one) prints `3.0`, not the integral `3` the documentation
records. -/
theorem c6_sqrt_produces_decimal_domain :
    Format true emptyEnv "\x7b0.inc.inc.sqrt\x7d" [.vInt 7] = .ok "3.0" := by decide

/-- C7: the code evaluated at the decisive inputs.  A boolean with the
explicit conversion `!i` and no specifier still renders `True`: the
empty-specifier override forces string conversion regardless of the
explicit conversion, so the conversion does not take precedence.  With a
specifier (`:d`) the boolean renders integrally, and with neither it
renders `True`. -/
theorem c7_bool_empty_specifier_overrides_conversion :
    Format true emptyEnv "\x7b0!i\x7d" [.vBool true] = .ok "True" ∧
    Format true emptyEnv "\x7b0:d\x7d" [.vBool true] = .ok "1" ∧
    Format true emptyEnv "\x7b0\x7d" [.vBool true] = .ok "True" := by decide

/-- C8 counterexample: a render call with an unbound field (`{5}`, one
argument supplied) need not raise the unbound-field error, and with the
strict toggle disabled need not succeed: a bound field whose width literal
overflows the parser's `int` raises IllegalFormatStringException during
binding in both configurations. -/
theorem c8_bound_field_error_counterexample :
    Format false emptyEnv "\x7b0:3000000000\x7d\x7b5\x7d" [.vInt 7]
      = .error (.illegalFormat 9 "Integer value overflows, use a smaller number") ∧
    Format true emptyEnv "\x7b0:3000000000\x7d\x7b5\x7d" [.vInt 7]
      = .error (.illegalFormat 9 "Integer value overflows, use a smaller number") := by decide

/-- C10 counterexample: an environment field for a missing variable is
substituted by the empty string but then formatted under the field's
specifier, so it need not render as the empty string: with width 3 the
field renders as three spaces. -/
theorem c10_missing_env_not_always_empty_counterexample :
    Format true emptyEnv "\x7b$MISSING:3\x7d" [] = .ok "   " ∧
    ("   " : String) ≠ "" := by decide

/-- C4 (amended): a template in which every brace occurs only inside a
doubled pair contains no fields, and `Format` returns it with the escapes
un-doubled, in any configuration, environment and argument list. -/
theorem c4_escaped_literal_template_undoubled
    (strict : Bool) (env : String → Option String) (t : List Char) (args : List Value)
    (h : EscapedLiteralOnly t = true) :
    Format strict env (String.mk t) args = .ok (String.mk (EscapeUndouble t)) := by
  obtain ⟨p, hp⟩ := GetPlainTextFragment_escaped t h 0
  unfold Format ParseFormatStr
  dsimp only
  rw [hp, except_ok_bind]
  dsimp only
  rw [ParseFormatStrLoop_nil, except_ok_bind]
  rw [except_ok_bind]
  dsimp only
  rw [show FormatParameters args [] = FormatParametersFrom 0 args [] from rfl,
      FormatParametersFrom_nilfrag args 0, except_ok_bind]
  rw [show OutputFragments strict [] = Except.ok "" from rfl, except_ok_bind]
  simp

/-- Witness for C4: the escaped-only template `x\x7b\x7by\x7d\x7d` renders
as its un-doubling `x\x7by\x7d`. -/
theorem c4_escaped_literal_template_undoubled_witness :
    EscapedLiteralOnly ("x\x7b\x7by\x7d\x7d".data) = true ∧
    Format true emptyEnv (String.mk ("x\x7b\x7by\x7d\x7d".data)) []
      = .ok (String.mk (EscapeUndouble ("x\x7b\x7by\x7d\x7d".data))) :=
  ⟨by decide, c4_escaped_literal_template_undoubled true emptyEnv ("x\x7b\x7by\x7d\x7d".data) [] (by decide)⟩

/-- C9: for every identifier key, the object-style template `\x7b0.key\x7d`
and the array-style template `\x7b0[key]\x7d` parse to the same fragments
and render identically for every configuration, environment and argument
list. -/
theorem c9_object_and_array_selector_equivalent
    (strict : Bool) (env : String → Option String) (k : List Char) (args : List Value)
    (hk : ∀ c ∈ k, isIdentChar c = true) :
    Format strict env (String.mk ('\x7b' :: '0' :: '.' :: (k ++ ['\x7d']))) args
      = Format strict env (String.mk ('\x7b' :: '0' :: '[' :: (k ++ [']', '\x7d']))) args := by
  have h1 : ParseFormatStr env ('\x7b' :: '0' :: '.' :: (k ++ ['\x7d']))
      = .ok (String.mk [], [{ InitializeFormatFragment {} 0 with
            selectors := (InitializeFormatFragment {} 0).selectors ++ [String.mk k] }]) := by
    unfold ParseFormatStr
    rw [show GetPlainTextFragment ('\x7b' :: '0' :: '.' :: (k ++ ['\x7d'])) 0 '\x00'
          = Except.ok ([], '\x7b' :: '0' :: '.' :: (k ++ ['\x7d']), 0) from rfl]
    simp only [except_ok_bind]
    rw [ParseFormatStrLoop_cons, ParseFormatParameter_dotsel env hk]
    simp only [except_ok_bind]
    rw [ParseFormatStrLoop_nil]
    simp only [except_ok_bind, List.append_nil]
  have h2 : ParseFormatStr env ('\x7b' :: '0' :: '[' :: (k ++ [']', '\x7d']))
      = .ok (String.mk [], [{ InitializeFormatFragment {} 0 with
            selectors := (InitializeFormatFragment {} 0).selectors ++ [String.mk k] }]) := by
    unfold ParseFormatStr
    rw [show GetPlainTextFragment ('\x7b' :: '0' :: '[' :: (k ++ [']', '\x7d'])) 0 '\x00'
          = Except.ok ([], '\x7b' :: '0' :: '[' :: (k ++ [']', '\x7d']), 0) from rfl]
    simp only [except_ok_bind]
    rw [ParseFormatStrLoop_cons, ParseFormatParameter_bracketsel env hk]
    simp only [except_ok_bind]
    rw [ParseFormatStrLoop_nil]
    simp only [except_ok_bind, List.append_nil]
  unfold Format
  dsimp only
  rw [h1, h2]

/-- Witness for C9: `\x7b0.key\x7d` and `\x7b0[key]\x7d` render the same
map argument identically. -/
theorem c9_object_and_array_selector_equivalent_witness :
    (∀ c ∈ ("key".data), isIdentChar c = true) ∧
    Format true emptyEnv (String.mk ('\x7b' :: '0' :: '.' :: ("key".data ++ ['\x7d'])))
        [.vMap (.ofList [("key", .vStr "V")])]
      = Format true emptyEnv (String.mk ('\x7b' :: '0' :: '[' :: ("key".data ++ [']', '\x7d'])))
        [.vMap (.ofList [("key", .vStr "V")])] :=
  ⟨by decide,
   c9_object_and_array_selector_equivalent true emptyEnv ("key".data)
     [.vMap (.ofList [("key", .vStr "V")])] (by decide)⟩

/-- C10 (amended): an environment field `\x7b$NAME\x7d` with no selectors,
conversion or specifier, whose variable is missing from the environment, is
substituted by the empty string and the whole render succeeds with empty
output, in both configurations and for any argument list. -/
theorem c10_missing_env_plain_field_empty
    (strict : Bool) (env : String → Option String) (k : List Char) (args : List Value)
    (hk : ∀ c ∈ k, isIdentChar c = true)
    (henv : env (String.mk k) = none) :
    Format strict env (String.mk ('\x7b' :: '$' :: (k ++ ['\x7d']))) args = .ok "" := by
  have hpp : ParseFormatParameter env ('\x7b' :: '$' :: (k ++ ['\x7d'])) 0 0
      = .ok ([{ text := "", index := -2, handled := true }], [], 2 + k.length + 1, 0) := by
    rw [ParseFormatParameter_envHead env k 0]
    rw [ReadIdentifier_append hk (by decide) [] 2]
    dsimp only
    exact ParseFormatParameterRest_envField env k 0 (2 + k.length) henv
  have hout : OutputFragments strict [({ text := "", index := -2, handled := true } : FormatFragment)]
      = .ok "" := by
    unfold OutputFragments
    rw [if_neg (by simp)]
    rw [show OutputFragments strict [] = Except.ok "" from rfl, except_ok_bind]
    rfl
  unfold Format ParseFormatStr
  dsimp only
  rw [show GetPlainTextFragment ('\x7b' :: '$' :: (k ++ ['\x7d'])) 0 '\x00'
        = Except.ok ([], '\x7b' :: '$' :: (k ++ ['\x7d']), 0) from rfl]
  simp only [except_ok_bind]
  rw [ParseFormatStrLoop_cons, hpp]
  simp only [except_ok_bind]
  rw [ParseFormatStrLoop_nil]
  simp only [except_ok_bind, List.append_nil]
  rw [show FormatParameters args [({ text := "", index := -2, handled := true } : FormatFragment)]
        = FormatParametersFrom 0 args [{ text := "", index := -2, handled := true }] from rfl]
  rw [FormatParametersFrom_negfrag (by decide) args 0]
  simp only [except_ok_bind]
  rw [hout]
  simp only [except_ok_bind]
  rfl

/-- Witness for C10: `\x7b$HOME_X\x7d` under the empty environment renders
as the empty string. -/
theorem c10_missing_env_plain_field_empty_witness :
    (∀ c ∈ ("HOME_X".data), isIdentChar c = true) ∧
    emptyEnv (String.mk ("HOME_X".data)) = none ∧
    Format true emptyEnv (String.mk ('\x7b' :: '$' :: ("HOME_X".data ++ ['\x7d']))) [] = .ok "" :=
  ⟨by decide, rfl,
   c10_missing_env_plain_field_empty true emptyEnv ("HOME_X".data) [] (by decide) rfl⟩

end StrFormat
